import Mathlib

/-!
Verification of the Telegram nutrition assistant (src/app) against its
specification.  The Python code is shallowly embedded: Python floats are
modelled exactly as rationals extended with the infinities and NaN
(`PyFloat`, rounding of finite values is not modelled since no claim depends
on it), Python values as the inductive `PyVal`, raising code as values of
`Except PyErr`, and the Telegram/Gemini/Google-Sheets collaborators as
explicit parameters of the embedded handlers.  Strings are modelled over the
ASCII fragment actually used by the program: case conversion and whitespace
stripping treat the ASCII ranges (the word sets and literals of the program
are all ASCII).
-/

namespace NutritionBot

/-- Python exception classes that the embedded code can raise or catch.
`valueError` also stands for json.JSONDecodeError, which subclasses
ValueError and is therefore caught by every `except ValueError` clause. -/
inductive PyErr where
  | typeError
  | valueError
  | keyError
  | attributeError
  | overflowError
deriving DecidableEq

/-- Python float: a finite rational, one of the two infinities, or NaN. -/
inductive PyFloat where
  | fin (q : ℚ)
  | inf
  | ninf
  | nan
deriving DecidableEq

namespace PyFloat

/-- Addition with IEEE-style special values (used by the report totals). -/
def add : PyFloat → PyFloat → PyFloat
  | nan, _ => nan
  | _, nan => nan
  | fin p, fin q => fin (p + q)
  | fin _, inf => inf
  | fin _, ninf => ninf
  | inf, fin _ => inf
  | ninf, fin _ => ninf
  | inf, inf => inf
  | ninf, ninf => ninf
  | inf, ninf => nan
  | ninf, inf => nan

/-- Multiplication with IEEE-style special values (used by the estimator
fallback `weight * 30` and by the progress-bar arithmetic). -/
def mul : PyFloat → PyFloat → PyFloat
  | nan, _ => nan
  | _, nan => nan
  | fin p, fin q => fin (p * q)
  | inf, inf => inf
  | inf, ninf => ninf
  | ninf, inf => ninf
  | ninf, ninf => inf
  | inf, fin q => if 0 < q then inf else if q < 0 then ninf else nan
  | ninf, fin q => if 0 < q then ninf else if q < 0 then inf else nan
  | fin q, inf => if 0 < q then inf else if q < 0 then ninf else nan
  | fin q, ninf => if 0 < q then ninf else if q < 0 then inf else nan

/-- Python `a < b` on floats; every comparison with NaN is false.  Division
by a zero float never happens on the executed paths (the progress bar is
only evaluated under a `target > 0` guard), so `div` maps that case to NaN. -/
def lt : PyFloat → PyFloat → Bool
  | fin p, fin q => p < q
  | fin _, inf => true
  | ninf, fin _ => true
  | ninf, inf => true
  | _, _ => false

/-- Python `a <= b` on floats; false whenever NaN is involved. -/
def le : PyFloat → PyFloat → Bool
  | fin p, fin q => p ≤ q
  | fin _, inf => true
  | ninf, fin _ => true
  | ninf, inf => true
  | inf, inf => true
  | ninf, ninf => true
  | _, _ => false

/-- Division (only reached with a nonzero divisor on executed paths). -/
def div : PyFloat → PyFloat → PyFloat
  | nan, _ => nan
  | _, nan => nan
  | fin p, fin q => if q = 0 then nan else fin (p / q)
  | inf, fin q => if 0 ≤ q then inf else ninf
  | ninf, fin q => if 0 ≤ q then ninf else inf
  | fin _, inf => fin 0
  | fin _, ninf => fin 0
  | _, _ => nan

/-- Python `min(a, b)`: returns `b` when `b < a`, else `a`. -/
def pymin (a b : PyFloat) : PyFloat := if lt b a then b else a

/-- Python `max(a, b)`: returns `b` when `a < b`, else `a`. -/
def pymax (a b : PyFloat) : PyFloat := if lt a b then b else a

/-- Python truthiness of a float: `0.0` is falsy, everything else (including
NaN and the infinities) is truthy. -/
def truthy : PyFloat → Bool
  | fin q => q ≠ 0
  | _ => true

end PyFloat

/-- Truncation of a rational toward zero, as Python `int(float)` does. -/
def ratTrunc (q : ℚ) : Int := if q < 0 then ⌈q⌉ else ⌊q⌋

/-- Python `int(x)` on a float: truncates finite values toward zero, raises
OverflowError on the infinities and ValueError on NaN. -/
def pfTruncInt : PyFloat → Except PyErr Int
  | PyFloat.fin q => Except.ok (ratTrunc q)
  | PyFloat.nan => Except.error PyErr.valueError
  | _ => Except.error PyErr.overflowError

/-- Round half to even on rationals, as Python `round(float)` does. -/
def ratRoundHalfEven (q : ℚ) : Int :=
  let f : Int := ⌊q⌋
  let r : ℚ := q - f
  if r < 1/2 then f
  else if 1/2 < r then f + 1
  else if f % 2 = 0 then f else f + 1

/-- Python `round(x)` on a float (raises on NaN and the infinities). -/
def pfRound : PyFloat → Except PyErr Int
  | PyFloat.fin q => Except.ok (ratRoundHalfEven q)
  | PyFloat.nan => Except.error PyErr.valueError
  | _ => Except.error PyErr.overflowError

/-! ## Character and string helpers -/

/-- ASCII lower-casing of one character, as `str.lower` does on the ASCII
range (the program only compares against ASCII word sets). -/
def asciiLower (c : Char) : Char :=
  if 'A' ≤ c ∧ c ≤ 'Z' then Char.ofNat (c.toNat + 32) else c

/-- Whitespace stripped by Python `str.strip()` and by `float()`/`int()`
(the ASCII whitespace characters, including vertical tab and form feed). -/
def isPySpace (c : Char) : Bool :=
  c = ' ' ∨ c = '\t' ∨ c = '\n' ∨ c = '\r' ∨ c = Char.ofNat 11 ∨ c = Char.ofNat 12

/-- Remove leading and trailing characters satisfying `p`. -/
def stripBoth (p : Char → Bool) (cs : List Char) : List Char :=
  ((cs.dropWhile p).reverse.dropWhile p).reverse

/-- Python `str.lower()` restricted to ASCII case folding. -/
def pyLowerStr (s : String) : String := String.mk (s.data.map asciiLower)

/-- Python `str.strip()` with no argument. -/
def pyStripStr (s : String) : String := String.mk (stripBoth isPySpace s.data)

/-- Membership test for a Python `needle in haystack` substring check. -/
def startsWith : List Char → List Char → Bool
  | [], _ => true
  | _ :: _, [] => false
  | c :: cs, d :: ds => c = d ∧ startsWith cs ds

/-- Python substring containment `needle in hay`. -/
def containsSub (needle hay : List Char) : Bool :=
  match hay with
  | [] => startsWith needle []
  | _ :: rest => startsWith needle hay || containsSub needle rest

/-- Python `needle in hay` on strings. -/
def pyInStr (needle hay : String) : Bool := containsSub needle.data hay.data

/-! ## Python numeric-literal parsing (`float(str)` and `int(str)`)

The grammar follows CPython: optional surrounding whitespace, an optional
sign, then either one of the special words inf/infinity/nan
(case-insensitively) or a decimal literal in which underscores may appear
between two digits, with an optional fraction and exponent. -/

/-- Parse a maximal digit run in which an underscore must sit between two
digits.  Returns the accumulated value, the number of digits read, and the
rest of the input; fails (whole-parse failure, as in CPython) on a
misplaced underscore. -/
def digRunGo : Nat → Nat → List Char → Option (Nat × Nat × List Char)
  | acc, n, [] => some (acc, n, [])
  | acc, n, '_' :: c2 :: cs2 =>
    if c2.isDigit then digRunGo (acc * 10 + (c2.toNat - 48)) (n + 1) cs2
    else Option.none
  | _, _, ['_'] => Option.none
  | acc, n, c :: cs =>
    if c.isDigit then digRunGo (acc * 10 + (c.toNat - 48)) (n + 1) cs
    else some (acc, n, c :: cs)

/-- Parse a digit run that must start with a digit. -/
def digRun : List Char → Option (Nat × Nat × List Char)
  | c :: cs => if c.isDigit then digRunGo (c.toNat - 48) 1 cs else Option.none
  | [] => Option.none

/-- Parse the mantissa of a float literal: digits with an optional fraction,
or a fraction alone.  Returns its rational value and the rest. -/
def parseMantissa (cs : List Char) : Option (ℚ × List Char) :=
  match digRun cs with
  | some (ip, _, rest) =>
    match rest with
    | '.' :: rest2 =>
      match rest2 with
      | c :: _ =>
        if c.isDigit then
          match digRun rest2 with
          | some (fp, nf, rest3) => some ((ip : ℚ) + (fp : ℚ) / (10 : ℚ) ^ nf, rest3)
          | Option.none => Option.none
        else some ((ip : ℚ), rest2)
      | [] => some ((ip : ℚ), [])
    | _ => some ((ip : ℚ), rest)
  | Option.none =>
    match cs with
    | '.' :: rest2 =>
      match digRun rest2 with
      | some (fp, nf, rest3) => some ((fp : ℚ) / (10 : ℚ) ^ nf, rest3)
      | Option.none => Option.none
    | _ => Option.none

/-- Parse an optional exponent after the mantissa; the whole remaining input
must be consumed. -/
def parseExponent (m : ℚ) (cs : List Char) : Option ℚ :=
  match cs with
  | [] => some m
  | c :: rest =>
    if c = 'e' ∨ c = 'E' then
      let sr : Int × List Char :=
        match rest with
        | '+' :: r => (1, r)
        | '-' :: r => (-1, r)
        | r => (1, r)
      match digRun sr.2 with
      | some (ev, _, []) => some (m * (10 : ℚ) ^ (sr.1 * (ev : Int)))
      | _ => Option.none
    else Option.none

/-- Python `float(s)` on a string: `some` of the parsed value, `Option.none`
when CPython would raise ValueError. -/
def pyFloatOfString (s : String) : Option PyFloat :=
  let cs := stripBoth isPySpace s.data
  let sgncs : Int × List Char :=
    match cs with
    | '+' :: r => (1, r)
    | '-' :: r => (-1, r)
    | r => (1, r)
  let body := sgncs.2
  let low := body.map asciiLower
  if low = "inf".data ∨ low = "infinity".data then
    some (if sgncs.1 = 1 then PyFloat.inf else PyFloat.ninf)
  else if low = "nan".data then some PyFloat.nan
  else
    match parseMantissa body with
    | some (m, rest) =>
      match parseExponent m rest with
      | some q => some (PyFloat.fin ((sgncs.1 : ℚ) * q))
      | Option.none => Option.none
    | Option.none => Option.none

/-- Python `int(s)` on a string: optional whitespace, optional sign, then a
digit run (underscores between digits allowed); no fraction or exponent. -/
def pyIntOfString (s : String) : Option Int :=
  let cs := stripBoth isPySpace s.data
  let sgncs : Int × List Char :=
    match cs with
    | '+' :: r => (1, r)
    | '-' :: r => (-1, r)
    | r => (1, r)
  match digRun sgncs.2 with
  | some (v, _, []) => some (sgncs.1 * (v : Int))
  | _ => Option.none

/-! ## Python values -/

/-- Python values as they appear in the program: JSON-decoded data,
spreadsheet cells, and the dictionaries returned by the Gemini helpers.
Dictionary keys are strings (they come from JSON objects). -/
inductive PyVal where
  | none
  | bool (b : Bool)
  | int (n : Int)
  | float (f : PyFloat)
  | str (s : String)
  | list (xs : List PyVal)
  | dict (xs : List (String × PyVal))

/-- Python truthiness. -/
def pyTruthy : PyVal → Bool
  | PyVal.none => false
  | PyVal.bool b => b
  | PyVal.int n => n ≠ 0
  | PyVal.float f => f.truthy
  | PyVal.str s => s ≠ ""
  | PyVal.list xs => ¬xs.isEmpty
  | PyVal.dict xs => ¬xs.isEmpty

/-- Python `x or d`: `x` when truthy, else `d`. -/
def pyOr (v d : PyVal) : PyVal := if pyTruthy v then v else d

/-- Python `d.get(k)` on a dictionary (first binding; dictionaries built by
the JSON parser have unique keys). -/
def pyDictGet (k : String) (d : List (String × PyVal)) : Option PyVal :=
  (d.find? (fun p => p.1 == k)).map (fun p => p.2)

/-- Python `d[k] = v`: overwrite the binding in place, or append it at the
end (keys are unique in every dict the program builds). -/
def pyDictSet (k : String) (v : PyVal) : List (String × PyVal) →
    List (String × PyVal)
  | [] => [(k, v)]
  | (k0, v0) :: tl =>
    if k0 == k then (k, v) :: tl else (k0, v0) :: pyDictSet k v tl

/-- Python `float(x)` on an arbitrary value: floats and ints and bools
convert, strings are parsed, everything else raises TypeError. -/
def pyFloatCoerce : PyVal → Except PyErr PyFloat
  | PyVal.float f => Except.ok f
  | PyVal.int n => Except.ok (PyFloat.fin n)
  | PyVal.bool b => Except.ok (PyFloat.fin (if b then 1 else 0))
  | PyVal.str s =>
    match pyFloatOfString s with
    | some f => Except.ok f
    | Option.none => Except.error PyErr.valueError
  | _ => Except.error PyErr.typeError

/-- Rendering of a finite float, used only through `pyStr` below. -/
def pfRepr : PyFloat → String
  | PyFloat.fin q => toString q
  | PyFloat.inf => "inf"
  | PyFloat.ninf => "-inf"
  | PyFloat.nan => "nan"

/-- Python `str(x)`.  The program only applies it to strings (identity) on
the paths the claims exercise; the renderings of the other constructors are
simplified placeholders. -/
def pyStr : PyVal → String
  | PyVal.str s => s
  | PyVal.none => "None"
  | PyVal.bool b => if b then "True" else "False"
  | PyVal.int n => toString n
  | PyVal.float f => pfRepr f
  | PyVal.list _ => "[...]"
  | PyVal.dict _ => "\x7b...\x7d"

/-! ## JSON parsing (`json.loads`)

A fuel-indexed recursive-descent parser for the JSON grammar as Python's
json module accepts it: strict numbers (no leading zeros, no leading `+`),
the extension tokens NaN, Infinity and negative Infinity, string escapes, and objects
whose later duplicate keys overwrite earlier ones. -/

/-- JSON whitespace. -/
def jsonWs (cs : List Char) : List Char :=
  cs.dropWhile (fun c => c = ' ' ∨ c = '\t' ∨ c = '\n' ∨ c = '\r')

/-- Hex digit value. -/
def hexVal (c : Char) : Option Nat :=
  if '0' ≤ c ∧ c ≤ '9' then some (c.toNat - 48)
  else if 'a' ≤ c ∧ c ≤ 'f' then some (c.toNat - 87)
  else if 'A' ≤ c ∧ c ≤ 'F' then some (c.toNat - 55)
  else Option.none

/-- Parse the body of a JSON string after the opening quote. -/
def jsonStringGo : List Char → List Char → Option (String × List Char)
  | acc, '"' :: rest => some (String.mk acc.reverse, rest)
  | acc, '\\' :: e :: rest =>
    if e = 'u' then
      match rest with
      | h1 :: h2 :: h3 :: h4 :: rest2 =>
        match hexVal h1, hexVal h2, hexVal h3, hexVal h4 with
        | some a, some b, some c, some d =>
          jsonStringGo (Char.ofNat (((a * 16 + b) * 16 + c) * 16 + d) :: acc) rest2
        | _, _, _, _ => Option.none
      | _ => Option.none
    else if e = '"' ∨ e = '\\' ∨ e = '/' then jsonStringGo (e :: acc) rest
    else if e = 'b' then jsonStringGo (Char.ofNat 8 :: acc) rest
    else if e = 'f' then jsonStringGo (Char.ofNat 12 :: acc) rest
    else if e = 'n' then jsonStringGo ('\n' :: acc) rest
    else if e = 'r' then jsonStringGo ('\r' :: acc) rest
    else if e = 't' then jsonStringGo ('\t' :: acc) rest
    else Option.none
  | acc, c :: rest =>
    if c.toNat < 32 then Option.none else jsonStringGo (c :: acc) rest
  | _, [] => Option.none

/-- Worker for a strict JSON digit run. -/
def jsonDigitsGo : Nat → Nat → List Char → Nat × Nat × List Char
  | acc, n, d :: ds =>
    if d.isDigit then jsonDigitsGo (acc * 10 + (d.toNat - 48)) (n + 1) ds
    else (acc, n, d :: ds)
  | acc, n, [] => (acc, n, [])

/-- Strict JSON digit run (no underscores). -/
def jsonDigits : List Char → Option (Nat × Nat × List Char)
  | c :: cs =>
    if c.isDigit then some (jsonDigitsGo (c.toNat - 48) 1 cs)
    else Option.none
  | [] => Option.none

/-- Parse a JSON number (after an optional leading minus has been noted):
strict integer part (a lone 0 or a nonzero-led run), optional fraction,
optional exponent.  Produces `PyVal.int` when there is neither fraction nor
exponent, `PyVal.float` otherwise, as Python json does. -/
def jsonNumber (neg : Bool) (cs : List Char) : Option (PyVal × List Char) :=
  match jsonDigits cs with
  | Option.none => Option.none
  | some (ip, nip, rest) =>
    -- reject leading zeros: "0" is fine, "0x..." digits are not
    if 1 < nip && (match cs with | '0' :: _ => true | _ => false) then Option.none
    else
      let sgn : ℚ := if neg then -1 else 1
      match rest with
      | '.' :: rest2 =>
        match jsonDigits rest2 with
        | Option.none => Option.none
        | some (fp, nf, rest3) =>
          let m : ℚ := (ip : ℚ) + (fp : ℚ) / (10 : ℚ) ^ nf
          match rest3 with
          | e :: rest4 =>
            if e = 'e' ∨ e = 'E' then
              let sr : Int × List Char :=
                match rest4 with
                | '+' :: r => (1, r)
                | '-' :: r => (-1, r)
                | r => (1, r)
              match jsonDigits sr.2 with
              | some (ev, _, rest5) =>
                some (PyVal.float (PyFloat.fin (sgn * m * (10 : ℚ) ^ (sr.1 * (ev : Int)))), rest5)
              | Option.none => Option.none
            else some (PyVal.float (PyFloat.fin (sgn * m)), rest3)
          | [] => some (PyVal.float (PyFloat.fin (sgn * m)), [])
      | e :: rest2 =>
        if e = 'e' ∨ e = 'E' then
          let sr : Int × List Char :=
            match rest2 with
            | '+' :: r => (1, r)
            | '-' :: r => (-1, r)
            | r => (1, r)
          match jsonDigits sr.2 with
          | some (ev, _, rest3) =>
            some (PyVal.float (PyFloat.fin (sgn * (ip : ℚ) * (10 : ℚ) ^ (sr.1 * (ev : Int)))), rest3)
          | Option.none => Option.none
        else some (PyVal.int (if neg then -(ip : Int) else (ip : Int)), e :: rest2)
      | [] => some (PyVal.int (if neg then -(ip : Int) else (ip : Int)), [])

/-- Insert a key into an object under construction, overwriting an earlier
duplicate as Python dicts do. -/
def pyDictInsert (k : String) (v : PyVal) (d : List (String × PyVal)) :
    List (String × PyVal) := pyDictSet k v d

mutual

/-- Parse one JSON value (fuel-indexed; the fuel is seeded with the input
length, which bounds the recursion depth and element count). -/
def jsonVal : Nat → List Char → Option (PyVal × List Char)
  | 0, _ => Option.none
  | fuel + 1, cs =>
    match jsonWs cs with
    | [] => Option.none
    | c :: rest =>
      if c = 'n' then
        match rest with
        | 'u' :: 'l' :: 'l' :: r => some (PyVal.none, r)
        | _ => Option.none
      else if c = 't' then
        match rest with
        | 'r' :: 'u' :: 'e' :: r => some (PyVal.bool true, r)
        | _ => Option.none
      else if c = 'f' then
        match rest with
        | 'a' :: 'l' :: 's' :: 'e' :: r => some (PyVal.bool false, r)
        | _ => Option.none
      else if c = 'N' then
        match rest with
        | 'a' :: 'N' :: r => some (PyVal.float PyFloat.nan, r)
        | _ => Option.none
      else if c = 'I' then
        match rest with
        | 'n' :: 'f' :: 'i' :: 'n' :: 'i' :: 't' :: 'y' :: r =>
          some (PyVal.float PyFloat.inf, r)
        | _ => Option.none
      else if c = '-' then
        match rest with
        | 'I' :: 'n' :: 'f' :: 'i' :: 'n' :: 'i' :: 't' :: 'y' :: r =>
          some (PyVal.float PyFloat.ninf, r)
        | r => jsonNumber true r
      else if c = '"' then
        match jsonStringGo [] rest with
        | some (s, r) => some (PyVal.str s, r)
        | Option.none => Option.none
      else if c = '[' then
        match jsonWs rest with
        | ']' :: r => some (PyVal.list [], r)
        | r => jsonItems fuel r
      else if c = Char.ofNat 123 then
        match jsonWs rest with
        | r =>
          match r with
          | d :: r2 =>
            if d = Char.ofNat 125 then some (PyVal.dict [], r2)
            else jsonMembers fuel [] (d :: r2)
          | [] => Option.none
      else jsonNumber false (c :: rest)

/-- Parse the elements of a nonempty JSON array (first element pending). -/
def jsonItems : Nat → List Char → Option (PyVal × List Char)
  | 0, _ => Option.none
  | fuel + 1, cs => jsonItemsGo fuel [] cs

/-- Accumulate array elements separated by commas until `]`. -/
def jsonItemsGo : Nat → List PyVal → List Char → Option (PyVal × List Char)
  | 0, _, _ => Option.none
  | fuel + 1, acc, cs =>
    match jsonVal fuel cs with
    | Option.none => Option.none
    | some (v, rest) =>
      match jsonWs rest with
      | ']' :: r => some (PyVal.list (acc ++ [v]), r)
      | ',' :: r => jsonItemsGo fuel (acc ++ [v]) r
      | _ => Option.none

/-- Accumulate object members separated by commas until the closing brace. -/
def jsonMembers : Nat → List (String × PyVal) → List Char →
    Option (PyVal × List Char)
  | 0, _, _ => Option.none
  | fuel + 1, acc, cs =>
    match jsonWs cs with
    | '"' :: rest =>
      match jsonStringGo [] rest with
      | Option.none => Option.none
      | some (k, rest2) =>
        match jsonWs rest2 with
        | ':' :: rest3 =>
          match jsonVal fuel rest3 with
          | Option.none => Option.none
          | some (v, rest4) =>
            let acc2 := pyDictInsert k v acc
            match jsonWs rest4 with
            | ',' :: r => jsonMembers fuel acc2 r
            | d :: r =>
              if d = Char.ofNat 125 then some (PyVal.dict acc2, r)
              else Option.none
            | [] => Option.none
        | _ => Option.none
    | _ => Option.none

end

/-- Python `json.loads(s)` on a string: `some` of the decoded value, or
`Option.none` where json.JSONDecodeError would be raised (which includes
trailing garbage). -/
def jsonParse (s : String) : Option PyVal :=
  match jsonVal (s.data.length + 1) s.data with
  | some (v, rest) => if jsonWs rest = [] then some v else Option.none
  | Option.none => Option.none

/-- Python `json.loads(x)` as the helpers call it on `response.text`, which
may be None: json.loads(None) raises TypeError (not caught by the helpers),
an undecodable string raises JSONDecodeError (a ValueError). -/
def jsonLoads : Option String → Except PyErr PyVal
  | Option.none => Except.error PyErr.typeError
  | some s =>
    match jsonParse s with
    | some v => Except.ok v
    | Option.none => Except.error PyErr.valueError

/-! ## markdown_utils.py -/

/-- Characters escaped by telegram.helpers.escape_markdown for MarkdownV2
(the set `_*[]()~`, backquote, `>#+-=|`, braces, `.` and `!`). -/
def mdEscapeChars : List Char :=
  ['_', '*', '[', ']', '(', ')', '~', Char.ofNat 96, '>', '#', '+', '-', '=',
   '|', Char.ofNat 123, Char.ofNat 125, '.', '!']

/-- Escape a plain string for Telegram MarkdownV2 by prefixing every special
character with a backslash (the body of telegram.helpers.escape_markdown
with version=2). -/
def escapeMdStr (s : String) : String :=
  String.mk (s.data.flatMap (fun c =>
    if mdEscapeChars.contains c then ['\\', c] else [c]))

/-- markdown_utils.escape_markdown_v2: empty string for None, otherwise
escape `str(text)`. -/
def escape_markdown_v2 : PyVal → String
  | PyVal.none => ""
  | v => escapeMdStr (pyStr v)

/-! ## Conversation data model (main.py)

Outbound replies are modelled by the inductive `Msg`: one constructor per
literal message template of main.py, carrying exactly the dynamic values the
template interpolates.  Store calls and replies are recorded as `Effect`s in
program order. -/

/-- Rows of the Profile and Meals worksheets as returned by
`get_all_records`: dictionaries from header name to cell value. -/
abbrev SheetRow := List (String × PyVal)

/-- Per-row display line of the daily report: escaped description and the
four truncated macro values interpolated into the bullet line. -/
structure MealLine where
  desc : String
  cals : Int
  prot : Int
  carbs : Int
  fats : Int
deriving DecidableEq

/-- Calories or protein line of the report: with a positive target it shows
`total/target` plus a progress bar, otherwise just the total. -/
inductive MacroLine where
  | withTarget (total target : Int) (bar : String)
  | noTarget (total : Int)
deriving DecidableEq

/-- Displayed total of a report macro line. -/
def MacroLine.total : MacroLine → Int
  | MacroLine.withTarget t _ _ => t
  | MacroLine.noTarget t => t

/-- Return value of build_daily_report_message, one constructor per return
site: the missing-profile message, the no-meals-logged message, or the full
report (with the values each template interpolates). -/
inductive ReportMsg where
  | noProfile
  | noMeals (dateSafe name : String)
  | daily (dateSafe name : String) (lines : List MealLine)
      (caloriesLine proteinLine : MacroLine) (carbsDisp fatsDisp : Int)
deriving DecidableEq

/-- One outbound Telegram message, by template. -/
inductive Msg where
  | regAskKnowTargets (name : String)
  | regReplyYesOrNo
  | regPromptCalories
  | regBadCalories
  | regPromptProtein
  | regBadProtein
  | regDoneManual (cals prot : Int)
  | regPromptWeight
  | regBadWeight
  | regPromptHeight
  | regBadHeight
  | regPromptAge
  | regBadAge
  | regPromptGoal
  | regCalculating
  | regDoneEstimated (cals prot : Int)
  | mealLoggedText (reply desc : String) (cals prot carbs fats : Int)
  | updateConfirm (reply : String)
  | updateClarify
  | report (r : ReportMsg)
  | chatReply (reply : String)
  | photoNeedProfile
  | photoDownloadFailed
  | photoAnalyzeFailed
  | photoSaveFailed
  | photoMealLogged (desc : String) (cals prot carbs fats : Int)

/-- One side effect of a handler, in program order. -/
inductive Effect where
  | createProfile (userId : Int) (name : String) (caloriesTarget proteinTarget : PyFloat)
  | appendMeal (userId : Int) (dateStr : String) (desc : PyVal)
      (calories proteins carbs fats : PyFloat)
  | updateProfileFields (userId : Int) (fields : List (String × PyFloat))
  | send (m : Msg)

/-- registration_step values of main.py. -/
inductive RegStep where
  | ask_name
  | ask_know_targets
  | ask_calories_target
  | ask_protein_target
  | ask_weight
  | ask_height
  | ask_age
  | ask_goal
deriving DecidableEq

/-- context.user_data["registration_data"]: each key of the Python dict is
present (`some`) or absent (`Option.none`). -/
structure RegData where
  name : Option String
  knows_targets : Option Bool
  calories_target : Option PyFloat
  protein_target : Option PyFloat
  weight_kg : Option PyFloat
  height_cm : Option PyFloat
  age_years : Option Int
  goal_raw : Option String
deriving DecidableEq

/-- The empty registration_data dict. -/
def regData0 : RegData :=
  ⟨Option.none, Option.none, Option.none, Option.none,
   Option.none, Option.none, Option.none, Option.none⟩

/-- Per-user conversation state: mid-registration with a step and the
accumulated data, or fully onboarded (`mainMode`, after
`user_data.clear(); user_data["mode"] = "main"`). -/
inductive Session where
  | reg (step : RegStep) (data : RegData)
  | mainMode
deriving DecidableEq

/-- Result of one registration message: the resulting conversation state,
the effects performed in order, and the exception that escaped the handler,
if any (mutations performed before the raise are kept, as in Python). -/
structure RegOut where
  session : Session
  effects : List Effect
  err : Option PyErr

/-- The external target estimator as the registration flow sees it
(estimate_calorie_and_protein_targets may raise, see the gemini model). -/
abbrev EstFn := PyFloat → PyFloat → Int → String → Except PyErr (PyFloat × PyFloat)

/-- Affirmative word set of the ask_know_targets step. -/
def affirmWords : List String := ["yes", "y", "yeah", "yep", "sure"]

/-- Negative word set of the ask_know_targets step. -/
def negativeWords : List String := ["no", "n", "nope", "nah"]

/-- Goal normalization of the ask_goal step (substring matching on the
lower-cased reply). -/
def normalizeGoal (goalText : String) : String :=
  if pyInStr "gain" goalText || pyInStr "bulk" goalText || pyInStr "muscle" goalText then
    "gain muscle"
  else if pyInStr "lose" goalText || pyInStr "cut" goalText || pyInStr "fat" goalText then
    "lose fat"
  else "maintain"

/-- Body of registration_assistant from the step dispatch on (main.py line
417 onward): `userText` is the already-stripped message text computed at
function entry.  `est` stands for estimate_calorie_and_protein_targets. -/
def registrationStep (est : EstFn) (chatId : Int) (step : RegStep)
    (data : RegData) (userText : String) : RegOut :=
  match step with
  | RegStep.ask_name =>
    let data' := { data with name := some userText }
    ⟨Session.reg RegStep.ask_know_targets data',
     [Effect.send (Msg.regAskKnowTargets (escapeMdStr userText))], Option.none⟩
  | RegStep.ask_know_targets =>
    let textLower := pyLowerStr userText
    if affirmWords.contains textLower then
      ⟨Session.reg RegStep.ask_calories_target { data with knows_targets := some true },
       [Effect.send Msg.regPromptCalories], Option.none⟩
    else if negativeWords.contains textLower then
      ⟨Session.reg RegStep.ask_weight { data with knows_targets := some false },
       [Effect.send Msg.regPromptWeight], Option.none⟩
    else
      ⟨Session.reg RegStep.ask_know_targets data,
       [Effect.send Msg.regReplyYesOrNo], Option.none⟩
  | RegStep.ask_calories_target =>
    match pyFloatOfString userText with
    | Option.none =>
      ⟨Session.reg RegStep.ask_calories_target data,
       [Effect.send Msg.regBadCalories], Option.none⟩
    | some v =>
      ⟨Session.reg RegStep.ask_protein_target { data with calories_target := some v },
       [Effect.send Msg.regPromptProtein], Option.none⟩
  | RegStep.ask_protein_target =>
    match pyFloatOfString userText with
    | Option.none =>
      ⟨Session.reg RegStep.ask_protein_target data,
       [Effect.send Msg.regBadProtein], Option.none⟩
    | some v =>
      let data' := { data with protein_target := some v }
      match data'.calories_target with
      | Option.none =>
        -- data["calories_target"] raises KeyError before create_profile
        ⟨Session.reg RegStep.ask_protein_target data', [], some PyErr.keyError⟩
      | some c =>
        let eff := Effect.createProfile chatId (data'.name.getD "champ") c v
        -- user_data.clear(); mode = "main" happen before the final message,
        -- whose int(...) interpolations can still raise on inf or nan
        match pfTruncInt c, pfTruncInt v with
        | Except.ok ci, Except.ok pi =>
          ⟨Session.mainMode, [eff, Effect.send (Msg.regDoneManual ci pi)], Option.none⟩
        | Except.error e, _ => ⟨Session.mainMode, [eff], some e⟩
        | _, Except.error e => ⟨Session.mainMode, [eff], some e⟩
  | RegStep.ask_weight =>
    match pyFloatOfString userText with
    | Option.none =>
      ⟨Session.reg RegStep.ask_weight data, [Effect.send Msg.regBadWeight], Option.none⟩
    | some v =>
      ⟨Session.reg RegStep.ask_height { data with weight_kg := some v },
       [Effect.send Msg.regPromptHeight], Option.none⟩
  | RegStep.ask_height =>
    match pyFloatOfString userText with
    | Option.none =>
      ⟨Session.reg RegStep.ask_height data, [Effect.send Msg.regBadHeight], Option.none⟩
    | some v =>
      ⟨Session.reg RegStep.ask_age { data with height_cm := some v },
       [Effect.send Msg.regPromptAge], Option.none⟩
  | RegStep.ask_age =>
    match pyIntOfString userText with
    | Option.none =>
      ⟨Session.reg RegStep.ask_age data, [Effect.send Msg.regBadAge], Option.none⟩
    | some n =>
      ⟨Session.reg RegStep.ask_goal { data with age_years := some n },
       [Effect.send Msg.regPromptGoal], Option.none⟩
  | RegStep.ask_goal =>
    let goalText := pyLowerStr userText
    let data' := { data with goal_raw := some goalText }
    let goalNorm := normalizeGoal goalText
    -- float(data["weight_kg"]), float(data["height_cm"]), int(data["age_years"])
    -- raise KeyError when any is absent, before any message is sent
    match data'.weight_kg with
    | Option.none => ⟨Session.reg RegStep.ask_goal data', [], some PyErr.keyError⟩
    | some w =>
      match data'.height_cm with
      | Option.none => ⟨Session.reg RegStep.ask_goal data', [], some PyErr.keyError⟩
      | some h =>
        match data'.age_years with
        | Option.none => ⟨Session.reg RegStep.ask_goal data', [], some PyErr.keyError⟩
        | some a =>
          let pre := [Effect.send Msg.regCalculating]
          match est w h a goalNorm with
          | Except.error e => ⟨Session.reg RegStep.ask_goal data', pre, some e⟩
          | Except.ok (ct, pt) =>
            let eff := Effect.createProfile chatId (data'.name.getD "champ") ct pt
            match pfTruncInt ct, pfTruncInt pt with
            | Except.ok ci, Except.ok pi =>
              ⟨Session.mainMode, pre ++ [eff, Effect.send (Msg.regDoneEstimated ci pi)],
               Option.none⟩
            | Except.error e, _ => ⟨Session.mainMode, pre ++ [eff], some e⟩
            | _, Except.error e => ⟨Session.mainMode, pre ++ [eff], some e⟩

/-- registration_assistant: strips the raw message text (main.py line 415)
and dispatches on the current step. -/
def registration_assistant (est : EstFn) (chatId : Int) (step : RegStep)
    (data : RegData) (rawText : String) : RegOut :=
  registrationStep est chatId step data (pyStripStr rawText)

/-! ## Google-Sheets store model (sheets_helpers.py as the handlers see it)

The handlers only observe the store through get_profile_by_user_id,
get_meals_for_date, append_meal_row and update_profile_fields; the store is
therefore modelled by the values those calls produce for the one user and
message under consideration, including whether a write raises. -/

/-- The spreadsheet-backed store as observed by one handler invocation. -/
structure SheetsStore where
  /-- get_profile_by_user_id(chat_id). -/
  profile : Option SheetRow
  /-- get_meals_for_date(chat_id, date_str). -/
  mealsFor : String → List SheetRow
  /-- Outcome of append_meal_row (ok, or the exception it raises). -/
  appendResult : Except PyErr Unit
  /-- Outcome of update_profile_fields. -/
  updateResult : Except PyErr Unit

/-! ## build_daily_report_message (main.py lines 76-176) -/

/-- Coercion of one macro cell: `float(row.get(key, 0) or 0)`. -/
def rowMacroVal (row : SheetRow) (key : String) : Except PyErr PyFloat :=
  pyFloatCoerce (pyOr ((pyDictGet key row).getD (PyVal.int 0)) (PyVal.int 0))

/-- The try body shared by the two macro-coercion sites: coerce the four
fields named `k1..k4` of a dict in order, stopping at the first failure. -/
def macroQuad (d : SheetRow) (k1 k2 k3 k4 : String) :
    Except PyErr (PyFloat × PyFloat × PyFloat × PyFloat) :=
  match rowMacroVal d k1 with
  | Except.error e => Except.error e
  | Except.ok c =>
    match rowMacroVal d k2 with
    | Except.error e => Except.error e
    | Except.ok p =>
      match rowMacroVal d k3 with
      | Except.error e => Except.error e
      | Except.ok cb =>
        match rowMacroVal d k4 with
        | Except.error e => Except.error e
        | Except.ok f => Except.ok (c, p, cb, f)

/-- The four-zero tuple the shared except clause assigns. -/
def zeroQuad : PyFloat × PyFloat × PyFloat × PyFloat :=
  (PyFloat.fin 0, PyFloat.fin 0, PyFloat.fin 0, PyFloat.fin 0)

/-- The four macro values a meal row contributes.  The source wraps all four
float() coercions in one try whose except sets all four to 0.0, so a failure
of any coercion zeroes the entire row. -/
def mealRowMacros (row : SheetRow) : PyFloat × PyFloat × PyFloat × PyFloat :=
  match macroQuad row "Calories" "Proteins" "Carbs" "Fats" with
  | Except.ok q => q
  | Except.error _ => zeroQuad

/-- The escaped description of a meal row:
`escape_markdown_v2(str(row.get("Meal_description", "Meal")).strip())`. -/
def mealRowDesc (row : SheetRow) : String :=
  escapeMdStr (pyStripStr (pyStr ((pyDictGet "Meal_description" row).getD (PyVal.str "Meal"))))

/-- The meal loop of build_daily_report_message: builds the display lines and
accumulates the four totals; the `int(...)` interpolations of each bullet
line can raise (inf or nan macros), aborting the whole function. -/
def reportRowsGo : List SheetRow → List MealLine → PyFloat → PyFloat → PyFloat →
    PyFloat → Except PyErr (List MealLine × PyFloat × PyFloat × PyFloat × PyFloat)
  | [], acc, tc, tp, tb, tf => Except.ok (acc.reverse, tc, tp, tb, tf)
  | row :: rows, acc, tc, tp, tb, tf =>
    let q := mealRowMacros row
    match pfTruncInt q.1, pfTruncInt q.2.1, pfTruncInt q.2.2.1, pfTruncInt q.2.2.2 with
    | Except.ok ci, Except.ok pi, Except.ok cbi, Except.ok fi =>
      reportRowsGo rows (⟨mealRowDesc row, ci, pi, cbi, fi⟩ :: acc)
        (tc.add q.1) (tp.add q.2.1) (tb.add q.2.2.1) (tf.add q.2.2.2)
    | Except.error e, _, _, _ => Except.error e
    | _, Except.error e, _, _ => Except.error e
    | _, _, Except.error e, _ => Except.error e
    | _, _, _, Except.error e => Except.error e

/-- Target parsing: `float(profile.get(key) or 0)`, with TypeError and
ValueError both caught and mapped to 0.0. -/
def profileTarget (profile : SheetRow) (key : String) : PyFloat :=
  match pyFloatCoerce (pyOr ((pyDictGet key profile).getD PyVal.none) (PyVal.int 0)) with
  | Except.ok f => f
  | Except.error _ => PyFloat.fin 0

/-- progress_bar(total, target) of main.py: a 20-cell bar with the ratio
capped at 200 percent; only called with target > 0 by the report, but its
own `target <= 0` guard is kept. -/
def progress_bar (total target : PyFloat) : Except PyErr String :=
  if PyFloat.le target (PyFloat.fin 0) then Except.ok "No target set."
  else
    let ratio := PyFloat.pymax (PyFloat.fin 0)
      (PyFloat.pymin (PyFloat.div total target) (PyFloat.fin 2))
    match pfRound (PyFloat.mul ratio (PyFloat.fin 100)) with
    | Except.error e => Except.error e
    | Except.ok pct =>
      match pfRound (PyFloat.pymin (PyFloat.fin 20)
        (PyFloat.pymax (PyFloat.fin 0) (PyFloat.mul ratio (PyFloat.fin 20)))) with
      | Except.error e => Except.error e
      | Except.ok filled =>
        let bar := String.mk (List.replicate filled.toNat '█' ++
          List.replicate (20 - filled).toNat '░')
        Except.ok (bar ++ " " ++ toString pct ++ "%")

/-- One calories or protein line: `total/target` with a bar when the parsed
target is positive, else the bare total. -/
def macroLineOf (total target : PyFloat) : Except PyErr MacroLine :=
  if PyFloat.lt (PyFloat.fin 0) target then
    match pfTruncInt total with
    | Except.error e => Except.error e
    | Except.ok ti =>
      match pfTruncInt target with
      | Except.error e => Except.error e
      | Except.ok tgi =>
        match progress_bar total target with
        | Except.error e => Except.error e
        | Except.ok bar => Except.ok (MacroLine.withTarget ti tgi bar)
  else
    match pfTruncInt total with
    | Except.error e => Except.error e
    | Except.ok ti => Except.ok (MacroLine.noTarget ti)

/-- The escaped display name: `escape_markdown_v2(profile.get("Name") or "champ")`. -/
def reportName (profile : SheetRow) : String :=
  escape_markdown_v2 (pyOr ((pyDictGet "Name" profile).getD PyVal.none) (PyVal.str "champ"))

/-- build_daily_report_message(chat_id, date_str), with the store calls it
makes replaced by the `SheetsStore` fields.  Returns the structured message
(one constructor per return site) or the exception the body raises. -/
def build_daily_report_message (store : SheetsStore) (dateStr : String) :
    Except PyErr ReportMsg :=
  match store.profile with
  | Option.none => Except.ok ReportMsg.noProfile
  | some profile =>
    let meals := store.mealsFor dateStr
    let name := reportName profile
    let dateSafe := escapeMdStr dateStr
    if meals.isEmpty then Except.ok (ReportMsg.noMeals dateSafe name)
    else
      match reportRowsGo meals [] (PyFloat.fin 0) (PyFloat.fin 0)
        (PyFloat.fin 0) (PyFloat.fin 0) with
      | Except.error e => Except.error e
      | Except.ok r =>
        let targetCal := profileTarget profile "Calories_target"
        let targetProt := profileTarget profile "Protein_target"
        match macroLineOf r.2.1 targetCal with
        | Except.error e => Except.error e
        | Except.ok caloriesLine =>
          match macroLineOf r.2.2.1 targetProt with
          | Except.error e => Except.error e
          | Except.ok proteinLine =>
            match pfTruncInt r.2.2.2.1 with
            | Except.error e => Except.error e
            | Except.ok carbsDisp =>
              match pfTruncInt r.2.2.2.2 with
              | Except.error e => Except.error e
              | Except.ok fatsDisp =>
                Except.ok (ReportMsg.daily dateSafe name r.1 caloriesLine
                  proteinLine carbsDisp fatsDisp)

/-! ## gemini_helpers.py: plan_nutrition_action and the target estimator

Both helpers read a Gemini response through `response.parsed` (modelled as a
`PyVal`, with `PyVal.none` for Python None) and `response.text` (an
`Option String`, None when the SDK returns no text).  Both wrap their
extraction in `except (KeyError, ValueError, json.JSONDecodeError,
AttributeError)`; TypeError is not in that tuple and escapes. -/

/-- Exception classes caught by the helpers' except tuple
(JSONDecodeError subclasses ValueError). -/
def caughtByHelpers (e : PyErr) : Bool :=
  e = PyErr.keyError ∨ e = PyErr.valueError ∨ e = PyErr.attributeError

/-- isinstance(x, dict). -/
def pyIsDict : PyVal → Bool
  | PyVal.dict _ => true
  | _ => false

/-- `data = response.parsed if response.parsed and isinstance(response.parsed,
dict) else json.loads(response.text)`. -/
def responseData (parsed : PyVal) (text : Option String) : Except PyErr PyVal :=
  if pyTruthy parsed && pyIsDict parsed then Except.ok parsed else jsonLoads text

/-- The try body of plan_nutrition_action: obtain the data object, raise
ValueError when it is not a dict, then default a falsy or absent action to
"chat" and a falsy or absent reply to "Got it!", writing both back. -/
def planExtract (parsed : PyVal) (text : Option String) : Except PyErr SheetRow :=
  match responseData parsed text with
  | Except.error e => Except.error e
  | Except.ok (PyVal.dict d) =>
    let action := pyOr ((pyDictGet "action" d).getD PyVal.none) (PyVal.str "chat")
    let reply := pyOr ((pyDictGet "reply" d).getD PyVal.none) (PyVal.str "Got it!")
    Except.ok (pyDictSet "reply" reply (pyDictSet "action" action d))
  | Except.ok _ => Except.error PyErr.valueError

/-- The fixed fallback plan returned when the except clause fires. -/
def fallbackPlan : SheetRow :=
  [("action", PyVal.str "chat"),
   ("reply", PyVal.str "I understand! Let me help you with that.")]

/-- plan_nutrition_action, as a function of the classifier response. -/
def plan_nutrition_action (parsed : PyVal) (text : Option String) :
    Except PyErr SheetRow :=
  match planExtract parsed text with
  | Except.ok d => Except.ok d
  | Except.error e =>
    if caughtByHelpers e then Except.ok fallbackPlan else Except.error e

/-- The try body of estimate_calorie_and_protein_targets: obtain the data
object, then `float(data["calories_target"])` and
`float(data["protein_target"])` (KeyError when a key is missing, TypeError
when the data object is not subscriptable by a string or a value is of a
non-coercible type such as None). -/
def estimateExtract (parsed : PyVal) (text : Option String) :
    Except PyErr (PyFloat × PyFloat) :=
  match responseData parsed text with
  | Except.error e => Except.error e
  | Except.ok (PyVal.dict d) =>
    match pyDictGet "calories_target" d with
    | Option.none => Except.error PyErr.keyError
    | some cv =>
      match pyFloatCoerce cv with
      | Except.error e => Except.error e
      | Except.ok c =>
        match pyDictGet "protein_target" d with
        | Option.none => Except.error PyErr.keyError
        | some pv =>
          match pyFloatCoerce pv with
          | Except.error e => Except.error e
          | Except.ok p => Except.ok (c, p)
  | Except.ok _ => Except.error PyErr.typeError

/-- estimate_calorie_and_protein_targets: the extracted pair, or on a caught
failure the fixed heuristic `(weight_kg * 30.0, weight_kg * 1.8)`.  Height,
age and goal only shape the prompt. -/
def estimate_calorie_and_protein_targets (weightKg heightCm : PyFloat)
    (ageYears : Int) (goal : String) (parsed : PyVal) (text : Option String) :
    Except PyErr (PyFloat × PyFloat) :=
  match estimateExtract parsed text with
  | Except.ok r => Except.ok r
  | Except.error e =>
    if caughtByHelpers e then
      Except.ok (PyFloat.mul weightKg (PyFloat.fin 30),
        PyFloat.mul weightKg (PyFloat.fin (9/5)))
    else Except.error e

/-! ## main_nutrition_agent (main.py lines 659-797) -/

/-- Result of one dispatcher or photo-handler invocation: the effects
performed in order, and the exception that escaped the handler, if any. -/
structure HandlerOut where
  effects : List Effect
  err : Option PyErr

/-- Python `x == lit` for a string literal: true only for an equal string. -/
def pyValEqStr (v : PyVal) (lit : String) : Bool :=
  match v with
  | PyVal.str s => s == lit
  | _ => false

/-- The four meal macros of the append_meal branch:
`float(meal.get(key, 0) or 0)` for each of the four keys, with one shared
try whose except sets all four to 0.0. -/
def planMealMacros (meal : SheetRow) : PyFloat × PyFloat × PyFloat × PyFloat :=
  match macroQuad meal "calories" "proteins" "carbs" "fats" with
  | Except.ok q => q
  | Except.error _ => zeroQuad

/-- Key sets of the update_profile normalization. -/
def caloriesKeys : List String := ["calories_target", "calories", "kcal"]

/-- Protein key set of the update_profile normalization. -/
def proteinKeys : List String := ["protein_target", "proteins", "protein"]

/-- Overwrite-or-append on the normalized update dict. -/
def setUpdateField (k : String) (v : PyFloat) (d : List (String × PyFloat)) :
    List (String × PyFloat) :=
  if d.any (fun p => p.1 == k) then
    d.map (fun p => if p.1 == k then (k, v) else p)
  else d ++ [(k, v)]

/-- Lookup on the normalized update dict. -/
def getUpdateField (k : String) (d : List (String × PyFloat)) : Option PyFloat :=
  (d.find? (fun p => p.1 == k)).map (fun p => p.2)

/-- One iteration of the update_profile normalization loop: lower-case the
key, match it against the two key sets, and keep `float(value)` under the
canonical column name, silently dropping a value whose coercion raises
TypeError or ValueError.  (The `key is None` guard of the source is
unreachable here because JSON object keys are strings.) -/
def normStep (acc : List (String × PyFloat)) (kv : String × PyVal) :
    List (String × PyFloat) :=
  let k := pyLowerStr kv.1
  if caloriesKeys.contains k then
    match pyFloatCoerce kv.2 with
    | Except.ok f => setUpdateField "Calories_target" f acc
    | Except.error _ => acc
  else if proteinKeys.contains k then
    match pyFloatCoerce kv.2 with
    | Except.ok f => setUpdateField "Protein_target" f acc
    | Except.error _ => acc
  else acc

/-- The normalization loop of the update_profile branch. -/
def normalize_updates (raw : SheetRow) : List (String × PyFloat) :=
  raw.foldl normStep []

/-- One confirmation part of the update_profile branch (the `int(...)`
interpolation can raise on a non-finite stored value). -/
def confirmPart (key suffix : String) (normalized : List (String × PyFloat)) :
    Except PyErr (List String) :=
  match getUpdateField key normalized with
  | Option.none => Except.ok []
  | some v =>
    match pfTruncInt v with
    | Except.error e => Except.error e
    | Except.ok i => Except.ok [toString i ++ suffix]

/-- The generated confirmation text of the update_profile branch
(source literal abbreviated: the trailing emoji is dropped). -/
def updateConfirmText (normalized : List (String × PyFloat)) : Except PyErr String :=
  match confirmPart "Calories_target" " kcal" normalized with
  | Except.error e => Except.error e
  | Except.ok p1 =>
    match confirmPart "Protein_target" " g protein" normalized with
    | Except.error e => Except.error e
    | Except.ok p2 =>
      Except.ok (escapeMdStr
        ("Updated your daily targets to " ++ String.intercalate ", " (p1 ++ p2)))

/-- Fallback reply of the append_meal branch when the classifier reply is
blank (source literal abbreviated: apostrophe and emoji dropped). -/
def defaultLoggedReply : String := escapeMdStr "Nice, I have logged that meal for you"

/-- Fallback reply of the chat branch (source literal abbreviated: emoji
dropped). -/
def defaultChatReply : String :=
  escapeMdStr
    "Got it! If you tell me what you ate, I can log it, or you can ask me for a daily report"

/-- Date resolution of the get_report branch: the token defaults to "today"
when the key is absent; a non-string token means today; a string token
lower-cased and stripped in the today word set means today; any other
string is used stripped. -/
def resolve_report_date (plan : SheetRow) (today : String) : String :=
  let dateToken := (pyDictGet "report_date" plan).getD (PyVal.str "today")
  match dateToken with
  | PyVal.str s =>
    let tokenLower := pyLowerStr (pyStripStr s)
    if tokenLower = "today" ∨ tokenLower = "tonight" ∨ tokenLower = "now" then today
    else pyStripStr s
  | _ => today

/-- main_nutrition_agent: dispatch one classifier plan.  `plan` is the dict
returned by plan_nutrition_action, `today` the value of today_str() (the
current UTC calendar day), and the store outcomes come from `store`.  Note
that neither the append_meal nor the update_profile store write is wrapped
in a try, so a raising write escapes the handler. -/
def main_nutrition_agent (store : SheetsStore) (chatId : Int) (plan : SheetRow)
    (today : String) : HandlerOut :=
  let action := (pyDictGet "action" plan).getD (PyVal.str "chat")
  let reply := escape_markdown_v2
    (pyOr ((pyDictGet "reply" plan).getD (PyVal.str "")) (PyVal.str ""))
  if pyValEqStr action "append_meal" then
    match pyOr ((pyDictGet "meal" plan).getD PyVal.none) (PyVal.dict []) with
    | PyVal.dict meal =>
      let descRaw := pyOr ((pyDictGet "description" meal).getD PyVal.none) (PyVal.str "Meal")
      let desc := escape_markdown_v2 descRaw
      let q := planMealMacros meal
      let eff := Effect.appendMeal chatId today descRaw q.1 q.2.1 q.2.2.1 q.2.2.2
      match store.appendResult with
      | Except.error e => ⟨[eff], some e⟩
      | Except.ok _ =>
        let replyBase := if pyStripStr reply = "" then defaultLoggedReply else reply
        match pfTruncInt q.1, pfTruncInt q.2.1, pfTruncInt q.2.2.1, pfTruncInt q.2.2.2 with
        | Except.ok ci, Except.ok pi, Except.ok cbi, Except.ok fi =>
          ⟨[eff, Effect.send (Msg.mealLoggedText replyBase desc ci pi cbi fi)],
           Option.none⟩
        | Except.error e, _, _, _ => ⟨[eff], some e⟩
        | _, Except.error e, _, _ => ⟨[eff], some e⟩
        | _, _, Except.error e, _ => ⟨[eff], some e⟩
        | _, _, _, Except.error e => ⟨[eff], some e⟩
    | _ =>
      -- plan["meal"] truthy but not a dict: meal.get raises AttributeError
      ⟨[], some PyErr.attributeError⟩
  else if pyValEqStr action "update_profile" then
    match pyOr ((pyDictGet "profile_updates" plan).getD PyVal.none) (PyVal.dict []) with
    | PyVal.dict raw =>
      let normalized := normalize_updates raw
      if normalized.isEmpty then
        ⟨[Effect.send Msg.updateClarify], Option.none⟩
      else
        let eff := Effect.updateProfileFields chatId normalized
        match store.updateResult with
        | Except.error e => ⟨[eff], some e⟩
        | Except.ok _ =>
          if pyStripStr reply = "" then
            match updateConfirmText normalized with
            | Except.error e => ⟨[eff], some e⟩
            | Except.ok t => ⟨[eff, Effect.send (Msg.updateConfirm t)], Option.none⟩
          else ⟨[eff, Effect.send (Msg.updateConfirm reply)], Option.none⟩
    | _ => ⟨[], some PyErr.attributeError⟩
  else if pyValEqStr action "get_report" then
    let dateStr := resolve_report_date plan today
    match build_daily_report_message store dateStr with
    | Except.error e => ⟨[], some e⟩
    | Except.ok r => ⟨[Effect.send (Msg.report r)], Option.none⟩
  else
    let replyBase := if pyStripStr reply = "" then defaultChatReply else reply
    ⟨[Effect.send (Msg.chatReply replyBase)], Option.none⟩

/-! ## handle_photo_message (main.py lines 312-400) -/

/-- Return value of analyze_meal_image: its own code guarantees these five
fields with float macro values (falling back to zeros internally). -/
structure MealAnalysis where
  meal_description : String
  calories : PyFloat
  proteins : PyFloat
  carbs : PyFloat
  fats : PyFloat

/-- `x or 0` on a float value followed by float(): identity except that a
falsy 0.0 goes through int 0. -/
def pfOrZero (f : PyFloat) : PyFloat := if f.truthy then f else PyFloat.fin 0

/-- handle_photo_message: profile gate, download gate, analysis gate (its
try catches every exception), then the meal append — whose failure IS
caught here, unlike in the text branch — and the confirmation message. -/
def handle_photo_message (store : SheetsStore) (chatId : Int)
    (download : Option String) (analysis : Except PyErr MealAnalysis)
    (today : String) : HandlerOut :=
  match store.profile with
  | Option.none => ⟨[Effect.send Msg.photoNeedProfile], Option.none⟩
  | some _ =>
    match download with
    | Option.none => ⟨[Effect.send Msg.photoDownloadFailed], Option.none⟩
    | some _ =>
      match analysis with
      | Except.error _ => ⟨[Effect.send Msg.photoAnalyzeFailed], Option.none⟩
      | Except.ok a =>
        let c := pfOrZero a.calories
        let p := pfOrZero a.proteins
        let cb := pfOrZero a.carbs
        let f := pfOrZero a.fats
        let eff := Effect.appendMeal chatId today (PyVal.str a.meal_description) c p cb f
        match store.appendResult with
        | Except.error _ => ⟨[eff, Effect.send Msg.photoSaveFailed], Option.none⟩
        | Except.ok _ =>
          match pfTruncInt c, pfTruncInt p, pfTruncInt cb, pfTruncInt f with
          | Except.ok ci, Except.ok pi, Except.ok cbi, Except.ok fi =>
            ⟨[eff, Effect.send (Msg.photoMealLogged (escapeMdStr a.meal_description)
               ci pi cbi fi)], Option.none⟩
          | Except.error e, _, _, _ => ⟨[eff], some e⟩
          | _, Except.error e, _, _ => ⟨[eff], some e⟩
          | _, _, Except.error e, _ => ⟨[eff], some e⟩
          | _, _, _, Except.error e => ⟨[eff], some e⟩

/-! ## chunk_for_telegram (markdown_utils.py lines 25-59)

Python strings are sequences of characters; here they are modelled as
`List Char` so that the loop invariants can be proved by list induction. -/

/-- Line boundaries recognized by Python str.splitlines (CR LF is handled as
one boundary in the splitter itself). -/
def isLineBoundary (c : Char) : Bool :=
  c = '\n' ∨ c = '\r' ∨ c = Char.ofNat 11 ∨ c = Char.ofNat 12 ∨
  c = Char.ofNat 28 ∨ c = Char.ofNat 29 ∨ c = Char.ofNat 30 ∨
  c = Char.ofNat 133 ∨ c = Char.ofNat 8232 ∨ c = Char.ofNat 8233

/-- Worker of str.splitlines(keepends=True): `acc` holds the reversed
characters of the current line. -/
def splitlinesGo (acc : List Char) : List Char → List (List Char)
  | [] => if acc = [] then [] else [acc.reverse]
  | '\r' :: '\n' :: rest => (acc.reverse ++ ['\r', '\n']) :: splitlinesGo [] rest
  | c :: rest =>
    if isLineBoundary c then (acc.reverse ++ [c]) :: splitlinesGo [] rest
    else splitlinesGo (c :: acc) rest

/-- Python `text.splitlines(keepends=True)`. -/
def pySplitlinesKeepends (text : List Char) : List (List Char) :=
  splitlinesGo [] text

/-- The inner while loop of chunk_for_telegram: hard-split a line longer
than `maxLen` into `maxLen`-sized chunks, returning them with the final
remainder of length at most `maxLen`.  (With `max_len <= 0` the Python loop
would not terminate; the guard `0 < maxLen` keeps this model total and every
claim about the function assumes a positive maximum.) -/
def hardSplitGo (maxLen : Nat) : Nat → List Char → List (List Char) × List Char
  | 0, line => ([], line)
  | fuel + 1, line =>
    if maxLen < line.length ∧ 0 < maxLen then
      let r := hardSplitGo maxLen fuel (line.drop maxLen)
      (line.take maxLen :: r.1, r.2)
    else ([], line)

/-- Entry point of the inner while loop: the fuel is the line length, which
bounds the iteration count since every round drops at least one character. -/
def hardSplit (maxLen : Nat) (line : List Char) : List (List Char) × List Char :=
  hardSplitGo maxLen line.length line

/-- The for loop of chunk_for_telegram over the remaining lines, with
`current` the accumulated chunk so far; returns the chunks emitted from this
point on (the final flush of `current` included). -/
def chunkFold (maxLen : Nat) : List (List Char) → List Char → List (List Char)
  | [], current => if current = [] then [] else [current]
  | line :: lines, current =>
    if maxLen < current.length + line.length then
      let pre : List (List Char) := if current = [] then [] else [current]
      let hs := hardSplit maxLen line
      pre ++ hs.1 ++ chunkFold maxLen lines hs.2
    else chunkFold maxLen lines (current ++ line)

/-- chunk_for_telegram(text, max_len): empty list for None, else split into
lines kept with their endings and greedily repack into chunks of at most
`maxLen` characters, hard-splitting oversized lines. -/
def chunk_for_telegram (text : Option (List Char)) (maxLen : Nat) :
    List (List Char) :=
  match text with
  | Option.none => []
  | some t => chunkFold maxLen (pySplitlinesKeepends t) []

/-! ## Statement helpers and concrete fixtures -/

/-- Is an effect a meal-store append? -/
def isAppendEffect : Effect → Bool
  | Effect.appendMeal _ _ _ _ _ _ _ => true
  | _ => false

/-- Is an effect an outbound message? -/
def isSendEffect : Effect → Bool
  | Effect.send _ => true
  | _ => false

/-- Does `float(v)` succeed? -/
def coercesOk (v : PyVal) : Bool :=
  match pyFloatCoerce v with
  | Except.ok _ => true
  | Except.error _ => false

/-- Does an update entry have a key matching one of the two recognized key
sets (case-insensitively) together with a numerically coercible value? -/
def matchedCoercible (kv : String × PyVal) : Bool :=
  (caloriesKeys.contains (pyLowerStr kv.1) || proteinKeys.contains (pyLowerStr kv.1))
    && coercesOk kv.2

/-- Left fold of the per-row macro contributions starting from given totals,
in the program's accumulation order. -/
def rowTotalsFrom (rows : List SheetRow)
    (t : PyFloat × PyFloat × PyFloat × PyFloat) :
    PyFloat × PyFloat × PyFloat × PyFloat :=
  rows.foldl (fun t r =>
    let q := mealRowMacros r
    (t.1.add q.1, t.2.1.add q.2.1, t.2.2.1.add q.2.2.1, t.2.2.2.add q.2.2.2)) t

/-- The aggregation rule asserted by the specification sentence behind C6,
written from the spec's words for comparison with the code: the sum of one
macro over all returned rows, with each unparsable value contributing 0
individually (independently of the row's other values). -/
def claimedPerValueMacroSum (key : String) (rows : List SheetRow) : PyFloat :=
  rows.foldl (fun acc r =>
    acc.add (match rowMacroVal r key with
      | Except.ok f => f
      | Except.error _ => PyFloat.fin 0)) (PyFloat.fin 0)

/-- A target estimator that always answers, for witnesses. -/
def estOk : EstFn := fun _ _ _ _ => Except.ok (PyFloat.fin 2000, PyFloat.fin 150)

/-- A minimal profile row, for witnesses. -/
def profAl : SheetRow := [("Name", PyVal.str "Al")]

/-- A store where every write succeeds, for witnesses. -/
def store0 : SheetsStore :=
  ⟨some profAl, fun _ => [], Except.ok (), Except.ok ()⟩

/-- A store whose meal append raises, for the write-failure claims. -/
def storeErr : SheetsStore :=
  ⟨some profAl, fun _ => [], Except.error PyErr.valueError, Except.ok ()⟩

/-- A meal row whose Calories cell is unparsable while its Proteins, Carbs
and Fats cells are parsable. -/
def rowBad : SheetRow :=
  [("Meal_description", PyVal.str "mystery"), ("Calories", PyVal.str "abc"),
   ("Proteins", PyVal.int 50), ("Carbs", PyVal.int 5), ("Fats", PyVal.int 5)]

/-- A store holding exactly `rowBad` on 2025-01-02. -/
def storeC6 : SheetsStore :=
  ⟨some profAl, fun d => if d = "2025-01-02" then [rowBad] else [],
   Except.ok (), Except.ok ()⟩

/-- The meal object of the negative-calorie plan. -/
def planNegMeal : SheetRow :=
  [("description", PyVal.str "snack"), ("calories", PyVal.int (-100)),
   ("proteins", PyVal.int 10), ("carbs", PyVal.int 0), ("fats", PyVal.int 0)]

/-- An append_meal plan whose meal carries a negative calorie estimate. -/
def planNeg : SheetRow :=
  [("action", PyVal.str "append_meal"), ("meal", PyVal.dict planNegMeal),
   ("reply", PyVal.str "ok")]

/-- An update_profile plan with an unrecognized update key. -/
def planUpd : SheetRow :=
  [("action", PyVal.str "update_profile"),
   ("profile_updates", PyVal.dict [("foo", PyVal.int 1)]),
   ("reply", PyVal.str "")]

/-- A meal analysis result, for the photo-branch witnesses. -/
def analysisPizza : MealAnalysis :=
  ⟨"pizza", PyFloat.fin 700, PyFloat.fin 30, PyFloat.fin 80, PyFloat.fin 25⟩

/-! ## Theorems -/

/-- The affirmative and negative word sets are disjoint. -/
lemma negative_not_affirm (l : String) (h : negativeWords.contains l = true) :
    affirmWords.contains l = false := by
  have hm : l ∈ negativeWords := by simpa using h
  fin_cases hm <;> decide

/-- C1: in registration state ask_know_targets, an input whose lower-casing
lies in the affirmative word set moves registration_step to
ask_calories_target, one whose lower-casing lies in the negative word set
moves it to ask_weight, and any other input re-prompts and leaves the step
(and the whole state) unchanged.  The input is the user_text the step
machine examines (the message text stripped at function entry, main.py line
415). -/
theorem claim1_ask_know_targets_transitions (est : EstFn) (chatId : Int)
    (data : RegData) (s : String) :
    (affirmWords.contains (pyLowerStr s) = true →
      registrationStep est chatId RegStep.ask_know_targets data s =
        ⟨Session.reg RegStep.ask_calories_target { data with knows_targets := some true },
         [Effect.send Msg.regPromptCalories], Option.none⟩)
  ∧ (negativeWords.contains (pyLowerStr s) = true →
      registrationStep est chatId RegStep.ask_know_targets data s =
        ⟨Session.reg RegStep.ask_weight { data with knows_targets := some false },
         [Effect.send Msg.regPromptWeight], Option.none⟩)
  ∧ (affirmWords.contains (pyLowerStr s) = false →
     negativeWords.contains (pyLowerStr s) = false →
      registrationStep est chatId RegStep.ask_know_targets data s =
        ⟨Session.reg RegStep.ask_know_targets data,
         [Effect.send Msg.regReplyYesOrNo], Option.none⟩) := by
  refine ⟨fun h => ?_, fun h => ?_, fun h1 h2 => ?_⟩
  · have h' : pyLowerStr s ∈ affirmWords := by simpa using h
    simp [registrationStep, h']
  · have h' : pyLowerStr s ∈ negativeWords := by simpa using h
    have h2 : pyLowerStr s ∉ affirmWords := by simpa using negative_not_affirm _ h
    simp [registrationStep, h', h2]
  · have h1' : pyLowerStr s ∉ affirmWords := by simpa using h1
    have h2' : pyLowerStr s ∉ negativeWords := by simpa using h2
    simp [registrationStep, h1', h2']

/-- Witness for C1 at the concrete inputs "YeS" and "maybe". -/
theorem claim1_witness :
    affirmWords.contains (pyLowerStr "YeS") = true
  ∧ registrationStep estOk 1 RegStep.ask_know_targets regData0 "YeS" =
      ⟨Session.reg RegStep.ask_calories_target { regData0 with knows_targets := some true },
       [Effect.send Msg.regPromptCalories], Option.none⟩
  ∧ registrationStep estOk 1 RegStep.ask_know_targets regData0 "maybe" =
      ⟨Session.reg RegStep.ask_know_targets regData0,
       [Effect.send Msg.regReplyYesOrNo], Option.none⟩ := by
  refine ⟨rfl, ?_, ?_⟩
  · exact (claim1_ask_know_targets_transitions estOk 1 regData0 "YeS").1 rfl
  · exact (claim1_ask_know_targets_transitions estOk 1 regData0 "maybe").2.2 rfl rfl

/-- C2: in each numeric registration state an input that fails to parse
(float for ask_calories_target, ask_protein_target, ask_weight and
ask_height, int for ask_age) re-prompts and leaves registration_step and the
accumulated registration_data entirely unchanged, while any parseable
number — negative values included, no range validation — is accepted and
advances the flow (completing registration in the ask_protein_target case,
where the accumulated calorie target is present as in the normal flow). -/
theorem claim2_numeric_parse_fail_closed (est : EstFn) (chatId : Int)
    (data : RegData) (s : String) :
    (pyFloatOfString s = Option.none →
        registrationStep est chatId RegStep.ask_calories_target data s =
          ⟨Session.reg RegStep.ask_calories_target data,
           [Effect.send Msg.regBadCalories], Option.none⟩
      ∧ registrationStep est chatId RegStep.ask_protein_target data s =
          ⟨Session.reg RegStep.ask_protein_target data,
           [Effect.send Msg.regBadProtein], Option.none⟩
      ∧ registrationStep est chatId RegStep.ask_weight data s =
          ⟨Session.reg RegStep.ask_weight data,
           [Effect.send Msg.regBadWeight], Option.none⟩
      ∧ registrationStep est chatId RegStep.ask_height data s =
          ⟨Session.reg RegStep.ask_height data,
           [Effect.send Msg.regBadHeight], Option.none⟩)
  ∧ (pyIntOfString s = Option.none →
      registrationStep est chatId RegStep.ask_age data s =
        ⟨Session.reg RegStep.ask_age data,
         [Effect.send Msg.regBadAge], Option.none⟩)
  ∧ (∀ v, pyFloatOfString s = some v →
        (registrationStep est chatId RegStep.ask_calories_target data s).session =
          Session.reg RegStep.ask_protein_target { data with calories_target := some v }
      ∧ (registrationStep est chatId RegStep.ask_weight data s).session =
          Session.reg RegStep.ask_height { data with weight_kg := some v }
      ∧ (registrationStep est chatId RegStep.ask_height data s).session =
          Session.reg RegStep.ask_age { data with height_cm := some v }
      ∧ (∀ c, data.calories_target = some c →
          (registrationStep est chatId RegStep.ask_protein_target data s).session =
            Session.mainMode
        ∧ Effect.createProfile chatId (data.name.getD "champ") c v ∈
            (registrationStep est chatId RegStep.ask_protein_target data s).effects))
  ∧ (∀ n, pyIntOfString s = some n →
      (registrationStep est chatId RegStep.ask_age data s).session =
        Session.reg RegStep.ask_goal { data with age_years := some n }) := by
  refine ⟨fun h => ⟨?_, ?_, ?_, ?_⟩, fun h => ?_, fun v h => ⟨?_, ?_, ?_, fun c hc => ?_⟩,
    fun n h => ?_⟩
  · simp [registrationStep, h]
  · simp [registrationStep, h]
  · simp [registrationStep, h]
  · simp [registrationStep, h]
  · simp [registrationStep, h]
  · simp [registrationStep, h]
  · simp [registrationStep, h]
  · simp [registrationStep, h]
  · cases h1 : pfTruncInt c <;> cases h2 : pfTruncInt v <;>
      simp [registrationStep, h, hc, h1, h2]
  · simp [registrationStep, h]

/-- Witness for C2: "abc" parses neither way and leaves ask_calories_target
(and ask_age) unchanged; the negative number "-12.5" advances ask_weight. -/
theorem claim2_witness :
    pyFloatOfString "abc" = Option.none
  ∧ registrationStep estOk 1 RegStep.ask_calories_target regData0 "abc" =
      ⟨Session.reg RegStep.ask_calories_target regData0,
       [Effect.send Msg.regBadCalories], Option.none⟩
  ∧ pyIntOfString "abc" = Option.none
  ∧ registrationStep estOk 1 RegStep.ask_age regData0 "abc" =
      ⟨Session.reg RegStep.ask_age regData0,
       [Effect.send Msg.regBadAge], Option.none⟩
  ∧ (pyFloatOfString "-12.5").isSome = true
  ∧ (registrationStep estOk 1 RegStep.ask_weight regData0 "-12.5").session =
      Session.reg RegStep.ask_height
        { regData0 with weight_kg := pyFloatOfString "-12.5" } := by
  refine ⟨by decide, ?_, by decide, ?_, by decide, ?_⟩
  · exact ((claim2_numeric_parse_fail_closed estOk 1 regData0 "abc").1 (by decide)).1
  · exact (claim2_numeric_parse_fail_closed estOk 1 regData0 "abc").2.1 (by decide)
  · obtain ⟨v, hv⟩ : ∃ v, pyFloatOfString "-12.5" = some v :=
      Option.isSome_iff_exists.mp (by decide)
    have h := ((claim2_numeric_parse_fail_closed estOk 1 regData0 "-12.5").2.2.1 v hv).2.1
    rw [h, hv]

/-- Reading back the key just written. -/
lemma pyDictGet_pyDictSet_self (k : String) (v : PyVal) (d : SheetRow) :
    pyDictGet k (pyDictSet k v d) = some v := by
  induction d with
  | nil => simp [pyDictSet, pyDictGet]
  | cons hd tl ih =>
    obtain ⟨k0, v0⟩ := hd
    by_cases hk : k0 == k
    · simp [pyDictSet, hk, pyDictGet]
    · simp only [pyDictSet, hk, if_false, Bool.false_eq_true]
      simpa [pyDictGet, hk] using ih

/-- Writing one key leaves the others readable unchanged. -/
lemma pyDictGet_pyDictSet_ne (k kw : String) (v : PyVal) (d : SheetRow)
    (h : k ≠ kw) : pyDictGet k (pyDictSet kw v d) = pyDictGet k d := by
  have hkw : (kw == k) = false := beq_eq_false_iff_ne.mpr (Ne.symm h)
  induction d with
  | nil => simp [pyDictSet, pyDictGet, hkw]
  | cons hd tl ih =>
    obtain ⟨k0, v0⟩ := hd
    by_cases hk : k0 == kw
    · have hk0 : k0 = kw := by simpa using hk
      subst hk0
      simp [pyDictSet, pyDictGet, hkw]
    · simp only [pyDictSet, hk, if_false, Bool.false_eq_true]
      by_cases hk2 : k0 == k
      · simp [pyDictGet, hk2]
      · simpa [pyDictGet, hk2] using ih

/-- A failure of the shared data-obtaining step with the raw response text
present is always a ValueError (a JSON decode failure). -/
lemma responseData_error_valueError (parsed : PyVal) (t : String) (e : PyErr)
    (hd : responseData parsed (some t) = Except.error e) : e = PyErr.valueError := by
  unfold responseData at hd
  split at hd
  · exact absurd hd (by simp)
  · unfold jsonLoads at hd
    cases hp : jsonParse t with
    | some v => simp [hp] at hd
    | none => simp [hp] at hd; exact hd.symm

/-- With the raw response text present, every failure of the
plan_nutrition_action try body is a ValueError (a JSON decode failure or the
not-an-object check), hence caught. -/
lemma planExtract_error_valueError (parsed : PyVal) (t : String) (e : PyErr)
    (h : planExtract parsed (some t) = Except.error e) : e = PyErr.valueError := by
  unfold planExtract at h
  cases hd : responseData parsed (some t) with
  | error e0 =>
    rw [hd] at h
    cases h
    exact responseData_error_valueError parsed t _ hd
  | ok data =>
    rw [hd] at h
    cases data <;> simp_all

/-- C3 counterexample: the classifier response `\x7b"action": "banana"\x7d`
is missing the reply field, hence malformed in the claim's sense, yet
plan_nutrition_action passes the unvalidated action value "banana" through:
the returned action is neither "chat" nor any of the four valid actions. -/
theorem claim3_counterexample :
    plan_nutrition_action (PyVal.dict [("action", PyVal.str "banana")]) (some "") =
      Except.ok [("action", PyVal.str "banana"), ("reply", PyVal.str "Got it!")]
  ∧ "banana" ∉ ["append_meal", "update_profile", "get_report", "chat"] := by
  exact ⟨rfl, by decide⟩

/-- C3 amended: with the raw response text present, plan_nutrition_action
never lets an error escape: a response that fails to yield a JSON object is
replaced by the exact fallback plan (action "chat", fixed non-empty reply),
and for an obtained JSON object a falsy or absent action becomes "chat" and
a falsy or absent reply becomes "Got it!", while a truthy action value is
passed through without validation.  (When the raw text is also absent, a
TypeError escapes instead — the claim's blanket guarantee does not hold
there, and an action value that is present and truthy is not forced into
the four-action set.) -/
theorem claim3_amended_classifier_fallback (parsed : PyVal) (t : String) :
    (∀ e, planExtract parsed (some t) = Except.error e →
       plan_nutrition_action parsed (some t) = Except.ok fallbackPlan)
  ∧ (∀ d, responseData parsed (some t) = Except.ok (PyVal.dict d) →
       plan_nutrition_action parsed (some t) = Except.ok
         (pyDictSet "reply" (pyOr ((pyDictGet "reply" d).getD PyVal.none) (PyVal.str "Got it!"))
           (pyDictSet "action"
             (pyOr ((pyDictGet "action" d).getD PyVal.none) (PyVal.str "chat")) d)))
  ∧ (∀ d, responseData parsed (some t) = Except.ok (PyVal.dict d) →
       pyDictGet "action" d = Option.none →
       ∃ d2, plan_nutrition_action parsed (some t) = Except.ok d2
         ∧ pyDictGet "action" d2 = some (PyVal.str "chat")
         ∧ pyTruthy ((pyDictGet "reply" d2).getD PyVal.none) = true)
  ∧ (∃ d, plan_nutrition_action parsed (some t) = Except.ok d) := by
  have hok : ∀ d, responseData parsed (some t) = Except.ok (PyVal.dict d) →
      plan_nutrition_action parsed (some t) = Except.ok
        (pyDictSet "reply" (pyOr ((pyDictGet "reply" d).getD PyVal.none) (PyVal.str "Got it!"))
          (pyDictSet "action"
            (pyOr ((pyDictGet "action" d).getD PyVal.none) (PyVal.str "chat")) d)) := by
    intro d hd
    simp [plan_nutrition_action, planExtract, hd]
  have herr : ∀ e, planExtract parsed (some t) = Except.error e →
      plan_nutrition_action parsed (some t) = Except.ok fallbackPlan := by
    intro e he
    have := planExtract_error_valueError parsed t e he
    subst this
    simp [plan_nutrition_action, he, caughtByHelpers]
  refine ⟨herr, hok, ?_, ?_⟩
  · intro d hd hact
    refine ⟨_, hok d hd, ?_, ?_⟩
    · rw [pyDictGet_pyDictSet_ne _ _ _ _ (by decide), pyDictGet_pyDictSet_self]
      simp [hact, pyOr, pyTruthy]
    · rw [pyDictGet_pyDictSet_self]
      cases hr : pyDictGet "reply" d with
      | none => simp [pyOr, pyTruthy]
      | some rv =>
        simp only [Option.getD_some]
        by_cases htr : pyTruthy rv
        · simpa [pyOr, htr] using htr
        · have h2 : pyOr rv (PyVal.str "Got it!") = PyVal.str "Got it!" := by
            simp [pyOr, htr]
          rw [h2]
          decide
  · cases hpe : planExtract parsed (some t) with
    | ok d => exact ⟨d, by simp [plan_nutrition_action, hpe]⟩
    | error e => exact ⟨fallbackPlan, herr e hpe⟩

/-- Witness for C3 amended: an unparsable raw text yields the exact
fallback, and a parsed object with no action field comes back with action
"chat". -/
theorem claim3_witness :
    plan_nutrition_action PyVal.none (some "oops") = Except.ok fallbackPlan
  ∧ plan_nutrition_action (PyVal.dict [("reply", PyVal.str "hello")]) (some "") =
      Except.ok [("reply", PyVal.str "hello"), ("action", PyVal.str "chat")] := by
  constructor
  · exact (claim3_amended_classifier_fallback PyVal.none "oops").1 PyErr.valueError rfl
  · have h := (claim3_amended_classifier_fallback
      (PyVal.dict [("reply", PyVal.str "hello")]) "").2.1
      [("reply", PyVal.str "hello")] rfl
    exact h.trans (by rfl)

/-- C9 counterexample: a response whose calories_target field is null cannot
be parsed into the required fields, yet the function does not return the
fallback pair (which would be (2400, 144) for weight 80): `float(None)`
raises TypeError, which the except tuple does not list, so the exception
escapes instead. -/
theorem claim9_counterexample :
    estimate_calorie_and_protein_targets (PyFloat.fin 80) (PyFloat.fin 180) 30
      "maintain"
      (PyVal.dict [("calories_target", PyVal.none), ("protein_target", PyVal.int 150)])
      (some "") = Except.error PyErr.typeError
  ∧ (Except.error PyErr.typeError :
      Except PyErr (PyFloat × PyFloat)) ≠
      Except.ok (PyFloat.fin 2400, PyFloat.fin 144) := by
  exact ⟨rfl, by simp⟩

/-- C9 amended: whenever the extraction fails with an exception the helper
catches (KeyError, ValueError including JSON decode errors, or
AttributeError), estimate_calorie_and_protein_targets returns exactly the
fallback pair (weight_kg * 30, weight_kg * 1.8); a TypeError — from a null
or otherwise non-coercible field value, or an absent raw text — escapes
instead of producing the fallback. -/
theorem claim9_amended_estimator_fallback (w h : PyFloat) (a : Int) (g : String)
    (parsed : PyVal) (t : Option String) (e : PyErr)
    (hx : estimateExtract parsed t = Except.error e)
    (hc : caughtByHelpers e = true) :
    estimate_calorie_and_protein_targets w h a g parsed t =
      Except.ok (PyFloat.mul w (PyFloat.fin 30), PyFloat.mul w (PyFloat.fin (9/5))) := by
  simp [estimate_calorie_and_protein_targets, hx, hc]

/-- Witness for C9 amended: an empty JSON object is missing calories_target
(KeyError, caught), and the fallback for weight 80 evaluates to
(2400, 144). -/
theorem claim9_witness :
    estimateExtract (PyVal.dict []) (some "\x7b\x7d") = Except.error PyErr.keyError
  ∧ estimate_calorie_and_protein_targets (PyFloat.fin 80) (PyFloat.fin 180) 30
      "maintain" (PyVal.dict []) (some "\x7b\x7d") =
      Except.ok (PyFloat.fin 2400, PyFloat.fin 144) := by
  refine ⟨rfl, ?_⟩
  have h := claim9_amended_estimator_fallback (PyFloat.fin 80) (PyFloat.fin 180)
    30 "maintain" (PyVal.dict []) (some "\x7b\x7d") PyErr.keyError rfl rfl
  rw [h]
  norm_num [PyFloat.mul]

/-- C7 counterexample: a report_date of " 2025-01-01 " is not used verbatim
as the store lookup key — the code strips it first — so the claim's
"literal report_date string is used verbatim" fails. -/
theorem claim7_counterexample :
    resolve_report_date [("report_date", PyVal.str " 2025-01-01 ")] "2099-09-09" =
      "2025-01-01"
  ∧ "2025-01-01" ≠ " 2025-01-01 "
  ∧ "2025-01-01" ≠ "2099-09-09" := by
  exact ⟨rfl, by decide, by decide⟩

/-- C7 amended: in the get_report branch, an absent report_date, a
non-string report_date, or a string whose lower-cased stripped value is
today, tonight or now resolves to the current UTC day; any other string is
used after stripping surrounding whitespace (not verbatim), with no
date-format validation; and the dispatcher passes exactly the resolved
string to the report builder as the store lookup key. -/
theorem claim7_amended_report_date (plan : SheetRow) (today : String)
    (store : SheetsStore) (chatId : Int) :
    (pyDictGet "report_date" plan = Option.none →
      resolve_report_date plan today = today)
  ∧ (∀ v, pyDictGet "report_date" plan = some v → (∀ s, v ≠ PyVal.str s) →
      resolve_report_date plan today = today)
  ∧ (∀ s, pyDictGet "report_date" plan = some (PyVal.str s) →
      ((pyLowerStr (pyStripStr s) = "today" ∨ pyLowerStr (pyStripStr s) = "tonight" ∨
          pyLowerStr (pyStripStr s) = "now") →
        resolve_report_date plan today = today)
    ∧ (¬(pyLowerStr (pyStripStr s) = "today" ∨ pyLowerStr (pyStripStr s) = "tonight" ∨
          pyLowerStr (pyStripStr s) = "now") →
        resolve_report_date plan today = pyStripStr s))
  ∧ (pyDictGet "action" plan = some (PyVal.str "get_report") →
      ∀ r, build_daily_report_message store (resolve_report_date plan today) =
          Except.ok r →
        main_nutrition_agent store chatId plan today =
          ⟨[Effect.send (Msg.report r)], Option.none⟩) := by
  refine ⟨fun h => ?_, fun v h hv => ?_, fun s h => ⟨fun hw => ?_, fun hw => ?_⟩,
    fun hact r hb => ?_⟩
  · have ht : pyLowerStr (pyStripStr "today") = "today" := by decide
    simp [resolve_report_date, h, ht]
  · cases v <;> simp [resolve_report_date, h] <;> exact absurd rfl (hv _)
  · rcases hw with hw | hw | hw <;> simp [resolve_report_date, h, hw]
  · have h1 : ¬pyLowerStr (pyStripStr s) = "today" := fun hh => hw (Or.inl hh)
    have h2 : ¬pyLowerStr (pyStripStr s) = "tonight" := fun hh => hw (Or.inr (Or.inl hh))
    have h3 : ¬pyLowerStr (pyStripStr s) = "now" := fun hh => hw (Or.inr (Or.inr hh))
    simp [resolve_report_date, h, h1, h2, h3]
  · have e1 : pyValEqStr (PyVal.str "get_report") "append_meal" = false := by decide
    have e2 : pyValEqStr (PyVal.str "get_report") "update_profile" = false := by decide
    have e3 : pyValEqStr (PyVal.str "get_report") "get_report" = true := by decide
    simp [main_nutrition_agent, hact, e1, e2, e3, hb]

/-- Witness for C7 amended: a concrete plan, resolution of each branch, and
the dispatcher sending exactly the report built for the resolved key. -/
theorem claim7_witness :
    resolve_report_date [("report_date", PyVal.str "ToNight ")] "2025-06-01" =
      "2025-06-01"
  ∧ resolve_report_date ([] : SheetRow) "2025-06-01" = "2025-06-01"
  ∧ resolve_report_date [("report_date", PyVal.str "nonsense")] "2025-06-01" =
      "nonsense"
  ∧ main_nutrition_agent store0 1
      [("action", PyVal.str "get_report"), ("report_date", PyVal.str "nonsense"),
       ("reply", PyVal.str "here")] "2025-06-01" =
      ⟨[Effect.send (Msg.report (ReportMsg.noMeals "nonsense" "Al"))], Option.none⟩ := by
  refine ⟨?_, ?_, ?_, ?_⟩
  · exact ((claim7_amended_report_date [("report_date", PyVal.str "ToNight ")]
      "2025-06-01" store0 1).2.2.1 "ToNight " rfl).1 (by decide)
  · exact (claim7_amended_report_date ([] : SheetRow) "2025-06-01" store0 1).1 rfl
  · exact ((claim7_amended_report_date [("report_date", PyVal.str "nonsense")]
      "2025-06-01" store0 1).2.2.1 "nonsense" rfl).2 (by decide)
  · exact (claim7_amended_report_date
      [("action", PyVal.str "get_report"), ("report_date", PyVal.str "nonsense"),
       ("reply", PyVal.str "here")] "2025-06-01" store0 1).2.2.2 rfl
      (ReportMsg.noMeals "nonsense" "Al") rfl

/-- C4 counterexample: an append_meal plan whose calorie estimate is -100 is
written to the meal store as -100 — the coercion is plain float() with no
non-negativity clamp, so a macro value written by this branch can be
negative, refuting "every macro value written ... is greater than or equal
to zero". -/
theorem claim4_counterexample :
    main_nutrition_agent store0 1 planNeg "2025-05-05" =
      ⟨[Effect.appendMeal 1 "2025-05-05" (PyVal.str "snack") (PyFloat.fin (-100))
          (PyFloat.fin 10) (PyFloat.fin 0) (PyFloat.fin 0),
        Effect.send (Msg.mealLoggedText "ok" "snack" (-100) 10 0 0)], Option.none⟩
  ∧ PyFloat.lt (PyFloat.fin (-100)) (PyFloat.fin 0) = true := by
  exact ⟨rfl, by norm_num [PyFloat.lt]⟩

/-- C4 amended: for every append_meal plan (with a well-formed meal object
and a succeeding store write) the dispatcher appends exactly one meal entry,
dated with the current UTC calendar day, whose four macro values are
`float(field or 0)` of the meal's fields — all four zeroed together when any
single coercion raises, and passed through unclamped (negative values
included) when coercion succeeds. -/
theorem claim4_amended_append_meal (store : SheetsStore) (chatId : Int)
    (plan : SheetRow) (today : String) (meal : SheetRow)
    (hact : pyDictGet "action" plan = some (PyVal.str "append_meal"))
    (hmeal : pyOr ((pyDictGet "meal" plan).getD PyVal.none) (PyVal.dict []) =
      PyVal.dict meal)
    (hap : store.appendResult = Except.ok ()) :
    ((main_nutrition_agent store chatId plan today).effects.filter isAppendEffect =
      [Effect.appendMeal chatId today
        (pyOr ((pyDictGet "description" meal).getD PyVal.none) (PyVal.str "Meal"))
        (planMealMacros meal).1 (planMealMacros meal).2.1
        (planMealMacros meal).2.2.1 (planMealMacros meal).2.2.2])
  ∧ (∀ e, macroQuad meal "calories" "proteins" "carbs" "fats" = Except.error e →
      planMealMacros meal = zeroQuad)
  ∧ (∀ q, macroQuad meal "calories" "proteins" "carbs" "fats" = Except.ok q →
      planMealMacros meal = q) := by
  refine ⟨?_, fun e he => by simp [planMealMacros, he],
    fun q hq => by simp [planMealMacros, hq]⟩
  have e1 : pyValEqStr (PyVal.str "append_meal") "append_meal" = true := by decide
  cases h1 : pfTruncInt (planMealMacros meal).1 <;>
    cases h2 : pfTruncInt (planMealMacros meal).2.1 <;>
      cases h3 : pfTruncInt (planMealMacros meal).2.2.1 <;>
        cases h4 : pfTruncInt (planMealMacros meal).2.2.2 <;>
          simp [main_nutrition_agent, hact, e1, hmeal, hap, h1, h2, h3, h4,
            isAppendEffect, List.filter]

/-- Witness for C4 amended at the concrete negative-calorie plan: exactly
one append effect, dated 2025-05-05, carrying the coerced quad
(-100, 10, 0, 0). -/
theorem claim4_witness :
    (main_nutrition_agent store0 1 planNeg "2025-05-05").effects.filter
        isAppendEffect =
      [Effect.appendMeal 1 "2025-05-05" (PyVal.str "snack") (PyFloat.fin (-100))
        (PyFloat.fin 10) (PyFloat.fin 0) (PyFloat.fin 0)] := by
  have h := (claim4_amended_append_meal store0 1 planNeg "2025-05-05"
    planNegMeal rfl rfl rfl).1
  exact h.trans (by rfl)

/-- C5 counterexample: when append_meal_row raises in the TEXT append_meal
branch, the exception escapes the handler — no try surrounds the write at
main.py lines 706-714 — and no message at all is sent to the user, refuting
the claim that every store-write failure is caught and converted to a
user-facing apology. -/
theorem claim5_counterexample :
    (main_nutrition_agent storeErr 1 planNeg "2025-05-05").err =
      some PyErr.valueError
  ∧ (main_nutrition_agent storeErr 1 planNeg "2025-05-05").effects.filter
      isSendEffect = [] := by
  exact ⟨rfl, rfl⟩

/-- C5 amended: only the photo branch guards its store write: a raising
append_meal_row there is caught and replaced by the fixed apology message,
with nothing escaping, while in the text append_meal branch the same
exception escapes the handler uncaught with no message sent; in neither
branch is there a retry or a rollback (the one attempted write is the only
store effect). -/
theorem claim5_amended_store_write_errors (store : SheetsStore) (chatId : Int)
    (plan : SheetRow) (today : String) (meal : SheetRow) (e : PyErr)
    (dl : String) (a : MealAnalysis) (prof : SheetRow)
    (hact : pyDictGet "action" plan = some (PyVal.str "append_meal"))
    (hmeal : pyOr ((pyDictGet "meal" plan).getD PyVal.none) (PyVal.dict []) =
      PyVal.dict meal)
    (hap : store.appendResult = Except.error e)
    (hprof : store.profile = some prof) :
    main_nutrition_agent store chatId plan today =
      ⟨[Effect.appendMeal chatId today
          (pyOr ((pyDictGet "description" meal).getD PyVal.none) (PyVal.str "Meal"))
          (planMealMacros meal).1 (planMealMacros meal).2.1
          (planMealMacros meal).2.2.1 (planMealMacros meal).2.2.2], some e⟩
  ∧ handle_photo_message store chatId (some dl) (Except.ok a) today =
      ⟨[Effect.appendMeal chatId today (PyVal.str a.meal_description)
          (pfOrZero a.calories) (pfOrZero a.proteins) (pfOrZero a.carbs)
          (pfOrZero a.fats),
        Effect.send Msg.photoSaveFailed], Option.none⟩ := by
  have e1 : pyValEqStr (PyVal.str "append_meal") "append_meal" = true := by decide
  constructor
  · simp [main_nutrition_agent, hact, e1, hmeal, hap]
  · simp [handle_photo_message, hprof, hap]

/-- Witness for C5 amended at the failing store: the text branch lets the
ValueError escape with only the attempted append recorded, the photo branch
ends with the apology message and no escaping exception. -/
theorem claim5_witness :
    main_nutrition_agent storeErr 1 planNeg "2025-05-05" =
      ⟨[Effect.appendMeal 1 "2025-05-05" (PyVal.str "snack") (PyFloat.fin (-100))
          (PyFloat.fin 10) (PyFloat.fin 0) (PyFloat.fin 0)], some PyErr.valueError⟩
  ∧ handle_photo_message storeErr 1 (some "photo.jpg") (Except.ok analysisPizza)
      "2025-05-05" =
      ⟨[Effect.appendMeal 1 "2025-05-05" (PyVal.str "pizza") (PyFloat.fin 700)
          (PyFloat.fin 30) (PyFloat.fin 80) (PyFloat.fin 25),
        Effect.send Msg.photoSaveFailed], Option.none⟩ := by
  have h := claim5_amended_store_write_errors storeErr 1 planNeg "2025-05-05"
    planNegMeal PyErr.valueError "photo.jpg" analysisPizza profAl rfl rfl rfl rfl
  exact ⟨h.1.trans (by rfl), h.2.trans (by rfl)⟩

/-- A normalization pass over entries none of which both match a key set
and coerce leaves the accumulator untouched. -/
lemma normFold_unmatched (raw : SheetRow) (acc : List (String × PyFloat))
    (h : raw.all (fun kv => !matchedCoercible kv) = true) :
    raw.foldl normStep acc = acc := by
  induction raw generalizing acc with
  | nil => rfl
  | cons hd tl ih =>
    simp only [List.all_cons, Bool.and_eq_true, Bool.not_eq_eq_eq_not,
      Bool.not_true] at h
    obtain ⟨h1, h2⟩ := h
    have hstep : normStep acc hd = acc := by
      cases hvc : pyFloatCoerce hd.2 with
      | error e => simp [normStep, hvc]
      | ok f =>
        have hok : coercesOk hd.2 = true := by simp [coercesOk, hvc]
        have hkeys : (caloriesKeys.contains (pyLowerStr hd.1) ||
            proteinKeys.contains (pyLowerStr hd.1)) = false := by
          simpa [matchedCoercible, hok] using h1
        obtain ⟨hc, hp⟩ := Bool.or_eq_false_iff.mp hkeys
        have hc' : pyLowerStr hd.1 ∉ caloriesKeys := by simpa using hc
        have hp' : pyLowerStr hd.1 ∉ proteinKeys := by simpa using hp
        simp [normStep, hc', hp']
    rw [List.foldl_cons, hstep]
    exact ih acc h2

/-- Entries whose value fails numeric coercion are dropped: filtering them
out first does not change the normalization result. -/
lemma normFold_filter (raw : SheetRow) (acc : List (String × PyFloat)) :
    raw.foldl normStep acc =
      (raw.filter (fun kv => coercesOk kv.2)).foldl normStep acc := by
  induction raw generalizing acc with
  | nil => rfl
  | cons hd tl ih =>
    cases hvc : pyFloatCoerce hd.2 with
    | ok f =>
      have hco : coercesOk hd.2 = true := by simp [coercesOk, hvc]
      simp only [List.filter_cons, hco, if_true, List.foldl_cons]
      exact ih (normStep acc hd)
    | error e =>
      have hco : coercesOk hd.2 = false := by simp [coercesOk, hvc]
      have hstep : normStep acc hd = acc := by simp [normStep, hvc]
      simp only [List.filter_cons, hco, List.foldl_cons, hstep,
        Bool.false_eq_true, if_false]
      exact ih acc

/-- C8: an update_profile plan whose profile_updates dict has no entry that
both matches one of the recognized key sets case-insensitively and carries a
numerically coercible value performs no store write at all — the dispatcher
produces exactly the clarification reply and nothing else — and,
independently, any entry whose value fails numeric coercion is dropped from
the normalized update. -/
theorem claim8_update_profile_no_write (store : SheetsStore) (chatId : Int)
    (plan : SheetRow) (today : String) (raw : SheetRow)
    (hact : pyDictGet "action" plan = some (PyVal.str "update_profile"))
    (hupd : pyOr ((pyDictGet "profile_updates" plan).getD PyVal.none)
      (PyVal.dict []) = PyVal.dict raw) :
    (raw.all (fun kv => !matchedCoercible kv) = true →
      main_nutrition_agent store chatId plan today =
        ⟨[Effect.send Msg.updateClarify], Option.none⟩)
  ∧ normalize_updates raw =
      normalize_updates (raw.filter (fun kv => coercesOk kv.2)) := by
  constructor
  · intro hall
    have hn : List.foldl normStep [] raw = [] := normFold_unmatched raw [] hall
    have e1 : pyValEqStr (PyVal.str "update_profile") "append_meal" = false := by
      decide
    have e2 : pyValEqStr (PyVal.str "update_profile") "update_profile" = true := by
      decide
    simp [main_nutrition_agent, hact, e1, e2, hupd, normalize_updates, hn]
  · exact normFold_filter raw []

/-- Witness for C8 at the concrete plan with the single unrecognized entry
foo=1: the dispatcher replies with the clarification and performs no write. -/
theorem claim8_witness :
    main_nutrition_agent store0 1 planUpd "2025-06-01" =
      ⟨[Effect.send Msg.updateClarify], Option.none⟩
  ∧ normalize_updates [("foo", PyVal.int 1)] =
      normalize_updates ([("foo", PyVal.int 1)].filter (fun kv => coercesOk kv.2)) := by
  have h := claim8_update_profile_no_write store0 1 planUpd "2025-06-01"
    [("foo", PyVal.int 1)] rfl rfl
  exact ⟨h.1 (by decide), h.2⟩

/-- The total displayed by a report macro line is the truncation of the
accumulated total handed to macroLineOf. -/
lemma macroLineOf_total (tot tgt : PyFloat) (ml : MacroLine)
    (h : macroLineOf tot tgt = Except.ok ml) :
    pfTruncInt tot = Except.ok ml.total := by
  unfold macroLineOf at h
  split at h
  · cases h1 : pfTruncInt tot with
    | error e => rw [h1] at h; simp at h
    | ok ti =>
      rw [h1] at h
      cases h2 : pfTruncInt tgt with
      | error e => rw [h2] at h; simp at h
      | ok tgi =>
        rw [h2] at h
        cases h3 : progress_bar tot tgt with
        | error e => rw [h3] at h; simp at h
        | ok bar => rw [h3] at h; cases h; rfl
  · cases h1 : pfTruncInt tot with
    | error e => rw [h1] at h; simp at h
    | ok ti => rw [h1] at h; cases h; rfl

/-- The totals returned by the meal loop are the left fold of the per-row
macro contributions over the processed rows, from the incoming totals. -/
lemma reportRowsGo_totals (rows : List SheetRow) :
    ∀ acc tc tp tb tf l a b c d,
      reportRowsGo rows acc tc tp tb tf = Except.ok (l, a, b, c, d) →
      (a, b, c, d) = rowTotalsFrom rows (tc, tp, tb, tf) := by
  induction rows with
  | nil =>
    intro acc tc tp tb tf l a b c d h
    unfold reportRowsGo at h
    cases h
    rfl
  | cons row rows ih =>
    intro acc tc tp tb tf l a b c d h
    simp only [reportRowsGo] at h
    cases h1 : pfTruncInt (mealRowMacros row).1 with
    | error e => rw [h1] at h; simp at h
    | ok ci =>
      rw [h1] at h
      cases h2 : pfTruncInt (mealRowMacros row).2.1 with
      | error e => rw [h2] at h; simp at h
      | ok pi =>
        rw [h2] at h
        cases h3 : pfTruncInt (mealRowMacros row).2.2.1 with
        | error e => rw [h3] at h; simp at h
        | ok cbi =>
          rw [h3] at h
          cases h4 : pfTruncInt (mealRowMacros row).2.2.2 with
          | error e => rw [h4] at h; simp at h
          | ok fi =>
            rw [h4] at h
            have := ih _ _ _ _ _ _ _ _ _ _ h
            rw [this]
            rfl

/-- C6 counterexample: with one stored row whose Calories cell is
unparsable but whose Proteins cell holds the parsable value 50, the shared
except clause zeroes the ENTIRE row, so the report shows a protein total of
0 — whereas the claim's per-value rule (unparsable values contribute 0
individually) predicts 50. -/
theorem claim6_counterexample :
    build_daily_report_message storeC6 "2025-01-02" =
      Except.ok (ReportMsg.daily "2025\\-01\\-02" "Al"
        [⟨"mystery", 0, 0, 0, 0⟩] (MacroLine.noTarget 0) (MacroLine.noTarget 0) 0 0)
  ∧ claimedPerValueMacroSum "Proteins" [rowBad] = (PyFloat.fin 0).add (PyFloat.fin 50)
  ∧ (PyFloat.fin 0).add (PyFloat.fin 50) = PyFloat.fin 50
  ∧ PyFloat.fin 50 ≠ PyFloat.fin 0 := by
  refine ⟨by with_unfolding_all rfl, by with_unfolding_all rfl,
    by norm_num [PyFloat.add], by simp⟩

/-- C6 amended: for a user with a profile, a date with zero stored rows
produces exactly the fixed no-meals message (never a zero-valued
aggregate); and whenever the full report is produced, each of the four
displayed totals is the truncation of the left-fold sum of the per-row
macro contributions — where a row whose four cells all coerce contributes
its parsed values and a row with any unparsable cell contributes zero for
ALL four macros (not just the unparsable one). -/
theorem claim6_amended_report_totals (store : SheetsStore) (dateStr : String)
    (prof : SheetRow) (hprof : store.profile = some prof) :
    (store.mealsFor dateStr = [] →
      build_daily_report_message store dateStr =
        Except.ok (ReportMsg.noMeals (escapeMdStr dateStr) (reportName prof)))
  ∧ (∀ ds nm lines cl pl cb ft,
      build_daily_report_message store dateStr =
        Except.ok (ReportMsg.daily ds nm lines cl pl cb ft) →
      store.mealsFor dateStr ≠ []
      ∧ pfTruncInt (rowTotalsFrom (store.mealsFor dateStr) zeroQuad).1 =
          Except.ok cl.total
      ∧ pfTruncInt (rowTotalsFrom (store.mealsFor dateStr) zeroQuad).2.1 =
          Except.ok pl.total
      ∧ pfTruncInt (rowTotalsFrom (store.mealsFor dateStr) zeroQuad).2.2.1 =
          Except.ok cb
      ∧ pfTruncInt (rowTotalsFrom (store.mealsFor dateStr) zeroQuad).2.2.2 =
          Except.ok ft) := by
  constructor
  · intro hempty
    simp [build_daily_report_message, hprof, hempty]
  · intro ds nm lines cl pl cb ft hd
    by_cases hme : (store.mealsFor dateStr).isEmpty
    · exfalso
      simp [build_daily_report_message, hprof, hme] at hd
    · have hne : store.mealsFor dateStr ≠ [] := by
        simpa [List.isEmpty_iff] using hme
      refine ⟨hne, ?_⟩
      simp only [build_daily_report_message, hprof, hme, Bool.false_eq_true,
        if_false] at hd
      cases hr : reportRowsGo (store.mealsFor dateStr) [] (PyFloat.fin 0)
        (PyFloat.fin 0) (PyFloat.fin 0) (PyFloat.fin 0) with
      | error e => rw [hr] at hd; simp at hd
      | ok r =>
        obtain ⟨l0, a0, b0, c0, d0⟩ := r
        rw [hr] at hd
        dsimp only at hd
        have htot := reportRowsGo_totals (store.mealsFor dateStr)
          [] _ _ _ _ _ _ _ _ _ hr
        cases hm1 : macroLineOf a0 (profileTarget prof "Calories_target") with
        | error e => rw [hm1] at hd; simp at hd
        | ok cl0 =>
          rw [hm1] at hd
          cases hm2 : macroLineOf b0 (profileTarget prof "Protein_target") with
          | error e => rw [hm2] at hd; simp at hd
          | ok pl0 =>
            rw [hm2] at hd
            cases ht1 : pfTruncInt c0 with
            | error e => rw [ht1] at hd; simp at hd
            | ok cb0 =>
              rw [ht1] at hd
              cases ht2 : pfTruncInt d0 with
              | error e => rw [ht2] at hd; simp at hd
              | ok ft0 =>
                rw [ht2] at hd
                simp only [Except.ok.injEq, ReportMsg.daily.injEq] at hd
                obtain ⟨_, _, _, hcl, hpl, hcb, hft⟩ := hd
                subst hcl hpl hcb hft
                have h1 := macroLineOf_total _ _ _ hm1
                have h2 := macroLineOf_total _ _ _ hm2
                have htot' : (a0, b0, c0, d0) =
                    rowTotalsFrom (store.mealsFor dateStr) zeroQuad := htot
                rw [← htot']
                exact ⟨h1, h2, ht1, ht2⟩

/-- Witness for C6 amended: the empty date yields exactly the no-meals
message, and on the date holding `rowBad` the displayed protein total is the
truncation of the folded sum. -/
theorem claim6_witness :
    build_daily_report_message storeC6 "2024-01-01" =
      Except.ok (ReportMsg.noMeals (escapeMdStr "2024-01-01") (reportName profAl))
  ∧ pfTruncInt (rowTotalsFrom (storeC6.mealsFor "2025-01-02") zeroQuad).2.1 =
      Except.ok ((MacroLine.noTarget 0).total) := by
  constructor
  · exact (claim6_amended_report_totals storeC6 "2024-01-01" profAl rfl).1 rfl
  · exact ((claim6_amended_report_totals storeC6 "2025-01-02" profAl rfl).2
      "2025\\-01\\-02" "Al" [⟨"mystery", 0, 0, 0, 0⟩] (MacroLine.noTarget 0)
      (MacroLine.noTarget 0) 0 0 (by with_unfolding_all rfl)).2.2.1

/-- Splitting with keepends loses no characters: flattening the lines gives
back the pending line followed by the rest of the input. -/
lemma splitlinesGo_flatten (acc cs : List Char) :
    (splitlinesGo acc cs).flatten = acc.reverse ++ cs := by
  induction acc, cs using splitlinesGo.induct with
  | case1 => simp [splitlinesGo]
  | case2 acc h => simp [splitlinesGo, h]
  | case3 acc rest ih => simp [splitlinesGo, ih]
  | case4 acc c rest hne hb ih =>
    rw [splitlinesGo.eq_def]
    split
    · rename_i heq; exact absurd heq (by simp)
    · rename_i r heq
      injection heq with h1 h2
      exact (hne _ h1 h2).elim
    · rename_i c2 rest2 hne2 heq
      injection heq with h1 h2
      subst h1 h2
      simp [hb, ih]
  | case5 acc c rest hne hb ih =>
    rw [splitlinesGo.eq_def]
    split
    · rename_i heq; exact absurd heq (by simp)
    · rename_i r heq
      injection heq with h1 h2
      exact (hne _ h1 h2).elim
    · rename_i c2 rest2 hne2 heq
      injection heq with h1 h2
      subst h1 h2
      simp [hb, ih]

/-- Every line produced by the keepends splitter is nonempty. -/
lemma splitlinesGo_ne_nil (acc cs : List Char) :
    ∀ l ∈ splitlinesGo acc cs, l ≠ [] := by
  induction acc, cs using splitlinesGo.induct with
  | case1 => simp [splitlinesGo]
  | case2 acc h => simp [splitlinesGo, h]
  | case3 acc rest ih =>
    intro l hl
    rw [splitlinesGo] at hl
    rcases List.mem_cons.mp hl with h1 | h1
    · subst h1; simp
    · exact ih l h1
  | case4 acc c rest hne hb ih =>
    intro l hl
    rw [splitlinesGo.eq_def] at hl
    revert hl
    split
    · rename_i heq; exact absurd heq (by simp)
    · rename_i r heq
      injection heq with h1 h2
      exact (hne _ h1 h2).elim
    · rename_i c2 rest2 hne2 heq
      injection heq with h1 h2
      subst h1 h2
      rw [if_pos hb]
      intro hl
      rcases List.mem_cons.mp hl with h1 | h1
      · subst h1; simp
      · exact ih l h1
  | case5 acc c rest hne hb ih =>
    intro l hl
    rw [splitlinesGo.eq_def] at hl
    revert hl
    split
    · rename_i heq; exact absurd heq (by simp)
    · rename_i r heq
      injection heq with h1 h2
      exact (hne _ h1 h2).elim
    · rename_i c2 rest2 hne2 heq
      injection heq with h1 h2
      subst h1 h2
      rw [if_neg hb]
      exact fun hl => ih l hl

/-- The hard-split pieces reassemble to the original line (any fuel). -/
lemma hardSplitGo_flatten (maxLen : Nat) :
    ∀ fuel line, (hardSplitGo maxLen fuel line).1.flatten ++
      (hardSplitGo maxLen fuel line).2 = line := by
  intro fuel
  induction fuel with
  | zero => intro line; simp [hardSplitGo]
  | succ fuel ih =>
    intro line
    by_cases h : maxLen < line.length ∧ 0 < maxLen
    · simp only [hardSplitGo, h, and_self, if_true, List.flatten_cons, List.append_assoc, ih]
      exact List.take_append_drop maxLen line
    · simp [hardSplitGo, h]

/-- The hard-split pieces reassemble to the original line. -/
lemma hardSplit_flatten (maxLen : Nat) (line : List Char) :
    (hardSplit maxLen line).1.flatten ++ (hardSplit maxLen line).2 = line :=
  hardSplitGo_flatten maxLen line.length line

/-- With a positive maximum and sufficient fuel, every hard-split chunk has
exactly the maximal length and the remainder is at most the maximum long. -/
lemma hardSplitGo_lengths (maxLen : Nat) (hpos : 0 < maxLen) :
    ∀ fuel line, line.length ≤ fuel →
      (∀ ch ∈ (hardSplitGo maxLen fuel line).1, ch.length = maxLen) ∧
        (hardSplitGo maxLen fuel line).2.length ≤ maxLen := by
  intro fuel
  induction fuel with
  | zero =>
    intro line hlen
    simp only [hardSplitGo]
    exact ⟨by simp, by omega⟩
  | succ fuel ih =>
    intro line hlen
    by_cases h : maxLen < line.length ∧ 0 < maxLen
    · simp only [hardSplitGo, h, and_self, if_true]
      have hdrop : (line.drop maxLen).length ≤ fuel := by
        simp only [List.length_drop]
        omega
      refine ⟨?_, (ih _ hdrop).2⟩
      intro ch hch
      rcases List.mem_cons.mp hch with h1 | h1
      · subst h1
        simp only [List.length_take]
        omega
      · exact (ih _ hdrop).1 ch h1
    · simp only [hardSplitGo, h, if_false]
      have hno : ¬maxLen < line.length := fun hlt => h ⟨hlt, hpos⟩
      exact ⟨by simp, by omega⟩

/-- With a positive maximum, every hard-split chunk has exactly the maximal
length and the remainder is at most the maximum long. -/
lemma hardSplit_lengths (maxLen : Nat) (hpos : 0 < maxLen) (line : List Char) :
    (∀ ch ∈ (hardSplit maxLen line).1, ch.length = maxLen) ∧
      (hardSplit maxLen line).2.length ≤ maxLen :=
  hardSplitGo_lengths maxLen hpos line.length line (Nat.le_refl _)

/-- The chunk fold loses no characters. -/
lemma chunkFold_flatten (maxLen : Nat) (lines : List (List Char)) :
    ∀ current, (chunkFold maxLen lines current).flatten =
      current ++ lines.flatten := by
  induction lines with
  | nil =>
    intro current
    by_cases h : current = [] <;> simp [chunkFold, h]
  | cons line lines ih =>
    intro current
    by_cases hlen : maxLen < current.length + line.length
    · simp only [chunkFold, hlen, if_true]
      by_cases hc : current = []
      · simp only [hc, if_true, List.nil_append, List.flatten_append, ih,
          List.flatten_cons]
        rw [← List.append_assoc, hardSplit_flatten]
      · simp only [hc, if_false, List.flatten_append, ih, List.flatten_cons,
          List.flatten, List.append_nil, List.append_assoc]
        rw [← List.append_assoc (hardSplit maxLen line).1.flatten,
          hardSplit_flatten]
    · simp only [chunkFold, hlen, if_false]
      rw [ih]
      simp

/-- The chunk fold keeps every emitted chunk within the maximum length. -/
lemma chunkFold_lengths (maxLen : Nat) (hpos : 0 < maxLen)
    (lines : List (List Char)) :
    ∀ current, current.length ≤ maxLen →
      ∀ ch ∈ chunkFold maxLen lines current, ch.length ≤ maxLen := by
  induction lines with
  | nil =>
    intro current hcur ch hch
    by_cases h : current = []
    · simp [chunkFold, h] at hch
    · simp only [chunkFold, h, if_false] at hch
      rcases List.mem_singleton.mp (by simpa using hch) with h1
      subst h1
      exact hcur
  | cons line lines ih =>
    intro current hcur ch hch
    by_cases hlen : maxLen < current.length + line.length
    · simp only [chunkFold, hlen, if_true, List.mem_append] at hch
      rcases hch with (hch | hch) | hch
      · by_cases hc : current = []
        · simp [hc] at hch
        · simp only [hc, if_false] at hch
          rcases List.mem_singleton.mp (by simpa using hch) with h1
          subst h1
          exact hcur
      · exact le_of_eq ((hardSplit_lengths maxLen hpos line).1 ch hch)
      · exact ih _ (hardSplit_lengths maxLen hpos line).2 ch hch
    · simp only [chunkFold, hlen, if_false] at hch
      exact ih _ (by rw [List.length_append]; omega) ch hch

/-- The chunk fold never emits an empty chunk (positive maximum). -/
lemma chunkFold_ne_nil (maxLen : Nat) (hpos : 0 < maxLen)
    (lines : List (List Char)) :
    ∀ current, ∀ ch ∈ chunkFold maxLen lines current, ch ≠ [] := by
  induction lines with
  | nil =>
    intro current ch hch
    by_cases h : current = []
    · simp [chunkFold, h] at hch
    · simp only [chunkFold, h, if_false] at hch
      rcases List.mem_singleton.mp (by simpa using hch) with h1
      subst h1
      exact h
  | cons line lines ih =>
    intro current ch hch
    by_cases hlen : maxLen < current.length + line.length
    · simp only [chunkFold, hlen, if_true, List.mem_append] at hch
      rcases hch with (hch | hch) | hch
      · by_cases hc : current = []
        · simp [hc] at hch
        · simp only [hc, if_false] at hch
          rcases List.mem_singleton.mp (by simpa using hch) with h1
          subst h1
          exact hc
      · have := (hardSplit_lengths maxLen hpos line).1 ch hch
        exact List.ne_nil_of_length_pos (by omega)
      · exact ih _ ch hch
    · simp only [chunkFold, hlen, if_false] at hch
      exact ih _ ch hch

/-- C10: for every text and every positive max_len, chunk_for_telegram
returns chunks whose concatenation is exactly the input (no characters
added, dropped or reordered), each chunk is at most max_len characters and
never empty; a None text yields the empty list. -/
theorem claim10_chunk_for_telegram (t : List Char) (maxLen : Nat)
    (hpos : 0 < maxLen) :
    (chunk_for_telegram (some t) maxLen).flatten = t
  ∧ (∀ ch ∈ chunk_for_telegram (some t) maxLen, ch.length ≤ maxLen ∧ ch ≠ [])
  ∧ chunk_for_telegram Option.none maxLen = [] := by
  refine ⟨?_, fun ch hch => ⟨?_, ?_⟩, rfl⟩
  · show (chunkFold maxLen (pySplitlinesKeepends t) []).flatten = t
    rw [chunkFold_flatten]
    simpa [pySplitlinesKeepends] using splitlinesGo_flatten [] t
  · exact chunkFold_lengths maxLen hpos (pySplitlinesKeepends t) []
      (by simp) ch hch
  · exact chunkFold_ne_nil maxLen hpos (pySplitlinesKeepends t) [] ch hch

/-- Witness for C10 at text "ab\ncd" and max_len 3, with the concrete chunk
list evaluated. -/
theorem claim10_witness :
    (chunk_for_telegram (some "ab\ncd".data) 3).flatten = "ab\ncd".data
  ∧ (∀ ch ∈ chunk_for_telegram (some "ab\ncd".data) 3, ch.length ≤ 3 ∧ ch ≠ [])
  ∧ chunk_for_telegram Option.none 3 = []
  ∧ chunk_for_telegram (some "ab\ncd".data) 3 = ["ab\n".data, "cd".data] := by
  have h := claim10_chunk_for_telegram "ab\ncd".data 3 (by decide)
  exact ⟨h.1, h.2.1, h.2.2, by decide⟩

end NutritionBot
